import Mathlib

/-
Verification development for the Spine API layer (src/app): a property-graph
memory store driven by Cypher statements (src/app/cypher.py) behind thin HTTP
routes (src/app/routes.py).  Each Cypher statement is shallowly embedded as a
pure function on an explicit graph state; the route handlers are embedded as
wrappers that add the consent gate, the not-found handling and the
first-row extraction, exactly as routes.py does.

Modelling conventions:
  * timestamps (Cypher datetime()) are a Nat clock carried by the graph; each
    write statement stamps with the current clock and advances it once;
  * randomUUID() / apoc.create.uuid() are modelled by an explicit fresh-id
    argument; where freshness matters it appears as a hypothesis;
  * Cypher row cardinality is modelled faithfully: MATCH on a missing node
    drops the row, UNWIND of an empty list leaves zero rows, and a statement
    whose final row set is empty returns no record (routes._first then yields
    None, modelled as Option.none) even though earlier writes persist;
  * MERGE on a node pattern is create-if-absent keyed on the id field; MERGE
    on an edge pattern deduplicates on the endpoints.
-/

/-- Identity node.  UPSERT_IDENTITY sets label/kind/created_at only ON CREATE;
CREATE_CONSENT can merge a bare identity carrying nothing but node_id, so all
non-key fields are optional. -/
structure IdentityNode where
  node_id : String
  label : Option String
  kind : Option String
  created_at : Option Nat
deriving DecidableEq, Repr

/-- Consent node (CREATE_CONSENT): scope / conditions / granted_at are set ON
CREATE; revoked_at is SET unconditionally on every call. -/
structure ConsentNode where
  consent_id : String
  scope : String
  conditions : List (String × String)
  granted_at : Nat
  revoked_at : Option Nat
deriving DecidableEq, Repr

/-- Thought node (UPSERT_THOUGHT).  Numeric fields are modelled as Int. -/
structure ThoughtNode where
  thought_id : String
  kind : String
  text : String
  tokens : Option Int
  embed : List Int
  ache : Int
  drift : Int
  created_at : Nat
deriving DecidableEq, Repr

/-- SelfState node (UPSERT_STATE): timestamp t and the six scalar coordinates
sigma, s, tau, chi, lambda, rho (lambda is spelled lambda_ as in
schemas.Vector). -/
structure StateNode where
  state_id : String
  t : Int
  sigma : Int
  s : Int
  tau : Int
  chi : Int
  lambda_ : Int
  rho : Int
  embed : List Int
  tags : List String
  created_at : Nat
deriving DecidableEq, Repr

/-- Claim node.  UPSERT_THOUGHT's MENTIONS wiring merge-creates bare Claim
stubs carrying only claim_id, so the non-key fields are optional. -/
structure ClaimNode where
  claim_id : String
  text : Option String
  truthiness : Option Int
  confidence : Option Int
  created_at : Option Nat
deriving DecidableEq, Repr

/-- Ritual node (UPSERT_RITUAL). -/
structure RitualNode where
  ritual_id : String
  name : String
  code : String
  version : String
  effect : Option String
  checksum : String
  meta : List (String × String)
  created_at : Nat
deriving DecidableEq, Repr

/-- Law node (UPSERT_LAW). -/
structure LawNode where
  law_id : String
  name : String
  version : String
  text : String
  checksum : String
  active : Bool
  created_at : Nat
deriving DecidableEq, Repr

/-- Event node (CREATE_EVENT).  Its when field is a timestamp. -/
structure EventNode where
  event_id : String
  name : String
  whenTs : Nat
  meta : List (String × String)
deriving DecidableEq, Repr

/-- A label-tagged node reference: the target of a polymorphic edge.  The
Cypher polymorphic MATCH (WHERE e.claim_id = x OR e.thought_id = x OR ...)
can resolve one id to nodes of several labels, so edge targets carry their
label. -/
inductive NodeRef where
  | identity (id : String)
  | consent (id : String)
  | thought (id : String)
  | state (id : String)
  | claim (id : String)
  | ritual (id : String)
  | law (id : String)
  | event (id : String)
  | glyph (id : String)
  | source (id : String)
  | artifact (id : String)
  | phase (id : String)
  | test (id : String)
deriving DecidableEq, Repr

/-- The id carried by a node reference. -/
def NodeRef.refId : NodeRef → String
  | .identity i => i
  | .consent i => i
  | .thought i => i
  | .state i => i
  | .claim i => i
  | .ritual i => i
  | .law i => i
  | .event i => i
  | .glyph i => i
  | .source i => i
  | .artifact i => i
  | .phase i => i
  | .test i => i

/-- A FEELS edge: SelfState → {Claim,Thought} with per-edge ache/tension. -/
structure FeelsEdge where
  src : String
  target : NodeRef
  ache : Int
  tension : Int
deriving DecidableEq, Repr

/-- One entry of the feels list of a state upsert request
({target_id, ache, tension} in schemas.StateUpsertIn). -/
structure FeelsIn where
  target_id : String
  ache : Int
  tension : Int
deriving DecidableEq, Repr

/-- The whole property graph plus the statement clock.  Glyph, Source,
Artifact, Phase and Test nodes carry only their id, so they are id lists.
The Test label appears only in polymorphic WHERE clauses; no statement ever
creates one, but the lookup is still translated over it. -/
structure Graph where
  identities : List IdentityNode
  consents : List ConsentNode
  thoughts : List ThoughtNode
  states : List StateNode
  claims : List ClaimNode
  rituals : List RitualNode
  laws : List LawNode
  events : List EventNode
  glyphs : List String
  sources : List String
  artifacts : List String
  phases : List String
  tests : List String
  consentEdges : List (String × String)
  usesGlyph : List (String × String)
  mentions : List (String × String)
  thoughtDerivesFrom : List (String × String)
  hasState : List (String × String × Nat)
  inPhase : List (String × String)
  derivedFrom : List (String × String)
  evidencedBy : List (String × NodeRef)
  feels : List FeelsEdge
  supportedBy : List (String × NodeRef)
  contradicts : List (String × String)
  appliesTo : List (String × NodeRef)
  updated : List (String × NodeRef)
  clock : Nat
deriving DecidableEq, Repr

/-- The empty store (before any write). -/
def Graph.empty : Graph :=
  { identities := [], consents := [], thoughts := [], states := [], claims := []
    rituals := [], laws := [], events := [], glyphs := [], sources := []
    artifacts := [], phases := [], tests := [], consentEdges := [], usesGlyph := []
    mentions := [], thoughtDerivesFrom := [], hasState := [], inPhase := []
    derivedFrom := [], evidencedBy := [], feels := [], supportedBy := []
    contradicts := [], appliesTo := [], updated := [], clock := 0 }

/-- Advance the statement clock (each write statement evaluates datetime()
against one instant and the next statement sees a later one). -/
def tick (g : Graph) : Graph := { g with clock := g.clock + 1 }

/-- First element of a list whose key equals i (Cypher node lookup by unique
id field). -/
def lookupBy (key : α → String) (i : String) : List α → Option α
  | [] => none
  | x :: xs => if key x = i then some x else lookupBy key i xs

def findIdentity (g : Graph) (nid : String) : Option IdentityNode :=
  lookupBy IdentityNode.node_id nid g.identities

def findConsent (g : Graph) (cid : String) : Option ConsentNode :=
  lookupBy ConsentNode.consent_id cid g.consents

def findThought (g : Graph) (tid : String) : Option ThoughtNode :=
  lookupBy ThoughtNode.thought_id tid g.thoughts

def findState (g : Graph) (sid : String) : Option StateNode :=
  lookupBy StateNode.state_id sid g.states

def findClaim (g : Graph) (cid : String) : Option ClaimNode :=
  lookupBy ClaimNode.claim_id cid g.claims

def findRitual (g : Graph) (rid : String) : Option RitualNode :=
  lookupBy RitualNode.ritual_id rid g.rituals

def findLaw (g : Graph) (lid : String) : Option LawNode :=
  lookupBy LawNode.law_id lid g.laws

def findEvent (g : Graph) (eid : String) : Option EventNode :=
  lookupBy EventNode.event_id eid g.events

/-- Edge-set MERGE: add each new element unless already present (at most one
edge of a given type between a given ordered pair). -/
def mergeList [DecidableEq α] (old new : List α) : List α :=
  new.foldl (fun acc e => if e ∈ acc then acc else acc ++ [e]) old

/-- All node references matched by a polymorphic lookup, over a list of
requested ids (the UNWIND variable), in request order. -/
def matchedRefs (f : String → List NodeRef) (ids : List String) : List NodeRef :=
  ids.foldr (fun i acc => f i ++ acc) []

/-- CONSENT_GUARD row set: MATCH (i:Identity {node_id})-[:CONSENT]->(c:Consent)
WHERE c.revoked_at IS NULL AND c.scope IN [scope, 'public']. -/
def consentRows (g : Graph) (node_id scope : String) : List ConsentNode :=
  if (findIdentity g node_id).isNone then []
  else
    g.consents.filter (fun c =>
      decide ((node_id, c.consent_id) ∈ g.consentEdges) &&
      c.revoked_at.isNone &&
      (decide (c.scope = scope) || decide (c.scope = "public")))

/-- CONSENT_GUARD result: count(c) > 0 AS allowed.  routes._ensure_consent
turns this single row into a boolean and raises 403 when it is false. -/
def consentGuard (g : Graph) (node_id scope : String) : Bool :=
  !(consentRows g node_id scope).isEmpty

/-- The typed errors the routes raise: HTTP 403 (consent not granted) and
HTTP 404 (queried anchor not found). -/
inductive ApiError where
  | permissionDenied
  | notFound
deriving DecidableEq, Repr

/-- Input record for POST /memory/identity (schemas.IdentityIn). -/
structure IdentityIn where
  node_id : String
  label : Option String
  kind : Option String
deriving DecidableEq, Repr

/-- UPSERT_IDENTITY: MERGE (i:Identity {node_id}) ON CREATE SET label, kind,
created_at; RETURN i { .* }.  There is no ON MATCH SET, so a re-upsert against
an existing node_id leaves every stored field untouched. -/
def runUpsertIdentity (g : Graph) (p : IdentityIn) : Graph × Option IdentityNode :=
  match findIdentity g p.node_id with
  | some i => (tick g, some i)
  | none =>
    let i : IdentityNode :=
      { node_id := p.node_id, label := p.label, kind := p.kind, created_at := some g.clock }
    (tick { g with identities := g.identities ++ [i] }, some i)

/-- Route POST /memory/identity. -/
def upsert_identity (g : Graph) (p : IdentityIn) : Graph × Option IdentityNode :=
  runUpsertIdentity g p

/-- Input record for POST /memory/consent (schemas.ConsentIn). -/
structure ConsentIn where
  node_id : String
  scope : String
  conditions : List (String × String)
  granted_at : Option Nat
  revoked_at : Option Nat
deriving DecidableEq, Repr

/-- CREATE_CONSENT, step 1: MERGE (i:Identity {node_id}) with no ON CREATE
clause, so a missing identity is materialized bearing only its node_id. -/
def mergeIdentityBare (g : Graph) (nid : String) : Graph :=
  if (findIdentity g nid).isSome then g
  else
    { g with identities :=
        g.identities ++ [{ node_id := nid, label := none, kind := none, created_at := none }] }

/-- CREATE_CONSENT: merge the identity, merge the consent on
coalesce(consent_id, randomUUID()) (ON CREATE SET scope/conditions/granted_at,
then SET revoked_at unconditionally), merge the CONSENT edge, return c { .* }.
The fresh argument stands for randomUUID(). -/
def runCreateConsent (g : Graph) (consent_id : Option String) (fresh : String)
    (p : ConsentIn) : Graph × Option ConsentNode :=
  let g1 := mergeIdentityBare g p.node_id
  let cid := consent_id.getD fresh
  match findConsent g1 cid with
  | some c =>
    let c2 := { c with revoked_at := p.revoked_at }
    let g2 := { g1 with
      consents := g1.consents.map (fun x => if x.consent_id = cid then c2 else x)
      consentEdges := mergeList g1.consentEdges [(p.node_id, cid)] }
    (tick g2, some c2)
  | none =>
    let c : ConsentNode :=
      { consent_id := cid, scope := p.scope, conditions := p.conditions
        granted_at := p.granted_at.getD g.clock, revoked_at := p.revoked_at }
    let g2 := { g1 with
      consents := g1.consents ++ [c]
      consentEdges := mergeList g1.consentEdges [(p.node_id, cid)] }
    (tick g2, some c)

/-- Route POST /memory/consent: routes.py always passes consent_id = None, so
every call creates a brand-new Consent node. -/
def create_consent (g : Graph) (p : ConsentIn) (fresh : String) :
    Graph × Option ConsentNode :=
  runCreateConsent g none fresh p

/-- Input record for POST /memory/thought (schemas.ThoughtIn). -/
structure ThoughtIn where
  thought_id : Option String
  kind : String
  text : String
  tokens : Option Int
  embed : List Int
  ache : Int
  drift : Int
  glyph_ids : List String
  mentions_claim_ids : List String
  source_id : Option String
deriving DecidableEq, Repr

/-- UNWIND mentions_claim_ids: MERGE (c:Claim {claim_id: cid}) — a missing
claim is materialized as a bare stub carrying only claim_id. -/
def mergeClaimStubs (cs : List ClaimNode) (ids : List String) : List ClaimNode :=
  ids.foldl (fun acc cid =>
    if (lookupBy ClaimNode.claim_id cid acc).isSome then acc
    else acc ++ [{ claim_id := cid, text := none, truthiness := none
                   confidence := none, created_at := none }]) cs

/-- MERGE (th:Thought {thought_id: ...}): full field replace ON MATCH,
created_at stamped only ON CREATE; also returns the Cypher variable th. -/
def mergeThoughtNode (g : Graph) (p : ThoughtIn) (tid : String) : Graph × ThoughtNode :=
  match findThought g tid with
  | some t =>
    let t2 := { t with kind := p.kind, text := p.text, tokens := p.tokens
                       embed := p.embed, ache := p.ache, drift := p.drift }
    ({ g with thoughts := g.thoughts.map (fun x => if x.thought_id = tid then t2 else x) }, t2)
  | none =>
    let t2 : ThoughtNode :=
      { thought_id := tid, kind := p.kind, text := p.text, tokens := p.tokens
        embed := p.embed, ache := p.ache, drift := p.drift, created_at := g.clock }
    ({ g with thoughts := g.thoughts ++ [t2] }, t2)

/-- UNWIND glyph_ids: MERGE Glyph stubs and USES_GLYPH edges. -/
def addGlyphs (g : Graph) (tid : String) (ids : List String) : Graph :=
  { g with glyphs := mergeList g.glyphs ids
           usesGlyph := mergeList g.usesGlyph (ids.map (fun gid => (tid, gid))) }

/-- UNWIND mentions_claim_ids: MERGE Claim stubs and MENTIONS edges. -/
def addMentions (g : Graph) (tid : String) (ids : List String) : Graph :=
  { g with claims := mergeClaimStubs g.claims ids
           mentions := mergeList g.mentions (ids.map (fun cid => (tid, cid))) }

/-- OPTIONAL MATCH the Source, FOREACH-merge the DERIVES_FROM edge. -/
def addThoughtSource (g : Graph) (tid : String) (src : Option String) : Graph :=
  match src with
  | some sid =>
    if sid ∈ g.sources then
      { g with thoughtDerivesFrom := mergeList g.thoughtDerivesFrom [(tid, sid)] }
    else g
  | none => g

/-- UPSERT_THOUGHT: merge the node on coalesce(thought_id, randomUUID());
UNWIND glyph_ids merging Glyph stubs and USES_GLYPH edges; UNWIND
mentions_claim_ids merging Claim stubs and MENTIONS edges; OPTIONAL MATCH the
Source and FOREACH-merge DERIVES_FROM; RETURN th { .* }.  Row cardinality: an
empty UNWIND list leaves zero rows, so every later clause (including RETURN)
operates on none; the writes already executed persist. -/
def runUpsertThought (g : Graph) (p : ThoughtIn) (fresh : String) :
    Graph × Option ThoughtNode :=
  let tid := p.thought_id.getD fresh
  let m := mergeThoughtNode g p tid
  let g2 := addGlyphs m.1 tid p.glyph_ids
  if p.glyph_ids.isEmpty then (tick g2, none) else
  let g3 := addMentions g2 tid p.mentions_claim_ids
  if p.mentions_claim_ids.isEmpty then (tick g3, none) else
  (tick (addThoughtSource g3 tid p.source_id), some m.2)

/-- Route POST /memory/thought. -/
def upsert_thought (g : Graph) (p : ThoughtIn) (fresh : String) :
    Graph × Option ThoughtNode :=
  runUpsertThought g p fresh

/-- Polymorphic lookup for UPSERT_STATE's evidence UNWIND: MATCH (e) WHERE
e.claim_id = ev OR e.thought_id = ev OR e.test_id = ev OR e.artifact_id = ev. -/
def evidenceMatches (g : Graph) (ev : String) : List NodeRef :=
  ((g.claims.filter (fun c => decide (c.claim_id = ev))).map (fun c => NodeRef.claim c.claim_id)) ++
  ((g.thoughts.filter (fun t => decide (t.thought_id = ev))).map (fun t => NodeRef.thought t.thought_id)) ++
  ((g.tests.filter (fun i => decide (i = ev))).map NodeRef.test) ++
  ((g.artifacts.filter (fun i => decide (i = ev))).map NodeRef.artifact)

/-- Polymorphic lookup for UPSERT_STATE's feels UNWIND: MATCH (t) WHERE
t.claim_id = f.target_id OR t.thought_id = f.target_id. -/
def feelsMatches (g : Graph) (tid : String) : List NodeRef :=
  ((g.claims.filter (fun c => decide (c.claim_id = tid))).map (fun c => NodeRef.claim c.claim_id)) ++
  ((g.thoughts.filter (fun t => decide (t.thought_id = tid))).map (fun t => NodeRef.thought t.thought_id))

/-- MERGE (s)-[r:FEELS]->(t) SET r.ache, r.tension: merge on the endpoints,
then overwrite the edge scalars. -/
def mergeFeels (fs : List FeelsEdge) (sid : String) (t : NodeRef) (ache tension : Int) :
    List FeelsEdge :=
  if fs.any (fun e => decide (e.src = sid) && decide (e.target = t)) then
    fs.map (fun e =>
      if e.src = sid ∧ e.target = t then { e with ache := ache, tension := tension } else e)
  else fs ++ [{ src := sid, target := t, ache := ache, tension := tension }]

/-- Parameter map routes.upsert_state passes to UPSERT_STATE. -/
structure StateParams where
  node_id : String
  state_id : Option String
  t : Int
  sigma : Int
  s : Int
  tau : Int
  chi : Int
  lambda_ : Int
  rho : Int
  embed : List Int
  tags : List String
  phase_id : Option String
  derived_from_state_id : Option String
  evidence : List String
  feels : List FeelsIn
deriving DecidableEq, Repr

/-- The SelfState node the ON CREATE branch writes: the request's fields plus
the creation stamp. -/
def newStateNode (g : Graph) (p : StateParams) (sid : String) : StateNode :=
  { state_id := sid, t := p.t, sigma := p.sigma, s := p.s, tau := p.tau
    chi := p.chi, lambda_ := p.lambda_, rho := p.rho, embed := p.embed
    tags := p.tags, created_at := g.clock }

/-- MERGE (s:SelfState {state_id: coalesce(state_id, apoc.create.uuid())}):
full field replace ON MATCH, created_at stamped only ON CREATE; also returns
the Cypher variable s. -/
def mergeStateNode (g : Graph) (p : StateParams) (sid : String) : Graph × StateNode :=
  match findState g sid with
  | some st =>
    let st2 := { st with t := p.t, sigma := p.sigma, s := p.s, tau := p.tau
                         chi := p.chi, lambda_ := p.lambda_, rho := p.rho
                         embed := p.embed, tags := p.tags }
    ({ g with states := g.states.map (fun x => if x.state_id = sid then st2 else x) }, st2)
  | none =>
    ({ g with states := g.states ++ [newStateNode g p sid] }, newStateNode g p sid)

/-- MERGE (i)-[:HAS_STATE {dt: datetime()}]->(s). -/
def addHasState (g : Graph) (nid sid : String) (dt : Nat) : Graph :=
  { g with hasState := mergeList g.hasState [(nid, sid, dt)] }

/-- OPTIONAL MATCH the Phase, FOREACH-merge the IN_PHASE edge. -/
def addInPhase (g : Graph) (sid : String) (pid : Option String) : Graph :=
  match pid with
  | some ph =>
    if ph ∈ g.phases then { g with inPhase := mergeList g.inPhase [(sid, ph)] } else g
  | none => g

/-- FOREACH over the optional lineage reference: the DERIVED_FROM edge is
merged only when a SelfState with the referenced id exists (plain MATCH — a
missing target creates nothing). -/
def addDerived (g : Graph) (sid : String) (prev : Option String) : Graph :=
  match prev with
  | some pr =>
    if (findState g pr).isSome then
      { g with derivedFrom := mergeList g.derivedFrom [(sid, pr)] }
    else g
  | none => g

/-- UNWIND evidence over the polymorphic MATCH, merging EVIDENCED_BY edges to
every matched node (a reference with no match contributes nothing). -/
def addEvidence (g : Graph) (sid : String) (evidence : List String) : Graph :=
  let targets := (matchedRefs (evidenceMatches g) evidence).map (fun r => (sid, r))
  { g with evidencedBy := mergeList g.evidencedBy targets }

/-- UNWIND feels over the polymorphic MATCH, merging FEELS edges and setting
ache/tension on each. -/
def addFeels (g : Graph) (sid : String) (fl : List FeelsIn) : Graph :=
  let merged := fl.foldl (fun fs f =>
    (feelsMatches g f.target_id).foldl
      (fun fs t => mergeFeels fs sid t f.ache f.tension) fs) g.feels
  { g with feels := merged }

/-- UPSERT_STATE: MATCH the Identity (a missing identity yields zero rows and
therefore no writes and no returned record); merge the SelfState node; merge
HAS_STATE {dt: datetime()}; the optional IN_PHASE edge; the optional lineage
edge; the evidence edges; the feels edges; RETURN s { .* }.  Row cardinality
as in runUpsertThought: an UNWIND stage with no surviving rows (empty list, or
no reference resolving) starves every later clause including RETURN. -/
def runUpsertState (g : Graph) (p : StateParams) (fresh : String) :
    Graph × Option StateNode :=
  match findIdentity g p.node_id with
  | none => (g, none)
  | some _ =>
    let sid := p.state_id.getD fresh
    let m := mergeStateNode g p sid
    let g2 := addHasState m.1 p.node_id sid g.clock
    let g3 := addInPhase g2 sid p.phase_id
    let g4 := addDerived g3 sid p.derived_from_state_id
    let g5 := addEvidence g4 sid p.evidence
    if p.evidence.any (fun ev => !(evidenceMatches g4 ev).isEmpty) then
      let g6 := addFeels g5 sid p.feels
      if p.feels.any (fun f => !(feelsMatches g5 f.target_id).isEmpty) then
        (tick g6, some m.2)
      else (tick g6, none)
    else (tick g5, none)

/-- The six scalar coordinates plus embedding of a state upsert request
(schemas.Vector; lambda is aliased to lambda_). -/
structure VectorIn where
  sigma : Int
  s : Int
  tau : Int
  chi : Int
  lambda_ : Int
  rho : Int
  embed : List Int
deriving DecidableEq, Repr

/-- Input record for POST /memory/state/upsert (schemas.StateUpsertIn).  Note
there is no state_id field: the request cannot address an existing state. -/
structure StateUpsertIn where
  node_id : String
  t : Int
  vector : VectorIn
  tags : List String
  phase_id : Option String
  derived_from_state_id : Option String
  evidence : List String
  feels : List FeelsIn
  scope : String
deriving DecidableEq, Repr

/-- The parameter map routes.upsert_state builds: state_id is hardcoded to
None, everything else is copied from the validated body. -/
def StateUpsertIn.toParams (b : StateUpsertIn) : StateParams :=
  { node_id := b.node_id, state_id := none, t := b.t, sigma := b.vector.sigma
    s := b.vector.s, tau := b.vector.tau, chi := b.vector.chi
    lambda_ := b.vector.lambda_, rho := b.vector.rho, embed := b.vector.embed
    tags := b.tags, phase_id := b.phase_id
    derived_from_state_id := b.derived_from_state_id
    evidence := b.evidence, feels := b.feels }

/-- Route POST /memory/state/upsert: routes._ensure_consent runs first and
raises 403 before any write when the consent guard fails; only then is
UPSERT_STATE executed. -/
def upsert_state (g : Graph) (b : StateUpsertIn) (fresh : String) :
    Except ApiError (Graph × Option StateNode) :=
  if consentGuard g b.node_id b.scope then .ok (runUpsertState g b.toParams fresh)
  else .error .permissionDenied

/-- Input record for POST /memory/claim (schemas.ClaimIn). -/
structure ClaimIn where
  claim_id : Option String
  text : String
  truthiness : Int
  confidence : Int
  support_ids : List String
  contradicts_ids : List String
deriving DecidableEq, Repr

/-- Polymorphic lookup for UPSERT_CLAIM's support UNWIND: MATCH (sup) WHERE
sup.source_id = sid OR sup.test_id = sid OR sup.artifact_id = sid OR
sup.thought_id = sid. -/
def supportMatches (g : Graph) (sid : String) : List NodeRef :=
  ((g.sources.filter (fun i => decide (i = sid))).map NodeRef.source) ++
  ((g.tests.filter (fun i => decide (i = sid))).map NodeRef.test) ++
  ((g.artifacts.filter (fun i => decide (i = sid))).map NodeRef.artifact) ++
  ((g.thoughts.filter (fun t => decide (t.thought_id = sid))).map (fun t => NodeRef.thought t.thought_id))

/-- MERGE (c:Claim {claim_id: coalesce(claim_id, randomUUID())}): full field
replace ON MATCH, created_at stamped only ON CREATE; also returns the Cypher
variable c. -/
def mergeClaimNode (g : Graph) (p : ClaimIn) (cid : String) : Graph × ClaimNode :=
  match findClaim g cid with
  | some c =>
    let c2 := { c with text := some p.text, truthiness := some p.truthiness
                       confidence := some p.confidence }
    ({ g with claims := g.claims.map (fun x => if x.claim_id = cid then c2 else x) }, c2)
  | none =>
    let c2 : ClaimNode :=
      { claim_id := cid, text := some p.text, truthiness := some p.truthiness
        confidence := some p.confidence, created_at := some g.clock }
    ({ g with claims := g.claims ++ [c2] }, c2)

/-- UNWIND support_ids over the polymorphic MATCH, merging SUPPORTED_BY
edges. -/
def addSupports (g : Graph) (cid : String) (ids : List String) : Graph :=
  let targets := (matchedRefs (supportMatches g) ids).map (fun r => (cid, r))
  { g with supportedBy := mergeList g.supportedBy targets }

/-- UNWIND contradicts_ids over MATCH (d:Claim {claim_id}), merging
CONTRADICTS edges to the claims that exist. -/
def addContradicts (g : Graph) (cid : String) (ids : List String) : Graph :=
  let targets := (ids.filter (fun d => (findClaim g d).isSome)).map (fun d => (cid, d))
  { g with contradicts := mergeList g.contradicts targets }

/-- UPSERT_CLAIM: merge the node on coalesce(claim_id, randomUUID()); UNWIND
support_ids over the polymorphic MATCH merging SUPPORTED_BY edges; UNWIND
contradicts_ids over MATCH (d:Claim {claim_id}) merging CONTRADICTS edges;
RETURN c { .* }.  Row cardinality as in runUpsertThought. -/
def runUpsertClaim (g : Graph) (p : ClaimIn) (fresh : String) :
    Graph × Option ClaimNode :=
  let cid := p.claim_id.getD fresh
  let m := mergeClaimNode g p cid
  let g2 := addSupports m.1 cid p.support_ids
  if p.support_ids.any (fun sid => !(supportMatches m.1 sid).isEmpty) then
    let g3 := addContradicts g2 cid p.contradicts_ids
    if p.contradicts_ids.any (fun d => (findClaim g2 d).isSome) then
      (tick g3, some m.2)
    else (tick g3, none)
  else (tick g2, none)

/-- Route POST /memory/claim. -/
def upsert_claim (g : Graph) (p : ClaimIn) (fresh : String) :
    Graph × Option ClaimNode :=
  runUpsertClaim g p fresh

/-- Parameter map for UPSERT_RITUAL (routes.upsert_ritual passes
ritual_id = None and meta = {}). -/
structure RitualParams where
  ritual_id : Option String
  name : String
  code : String
  version : String
  checksum : String
  effect : Option String
  meta : Option (List (String × String))
  applies_to : List String
deriving DecidableEq, Repr

/-- Polymorphic lookup for UPSERT_RITUAL's applies_to UNWIND: MATCH (t) WHERE
t.phase_id = aid OR t.node_id = aid OR t.law_id = aid. -/
def appliesMatches (g : Graph) (aid : String) : List NodeRef :=
  ((g.phases.filter (fun i => decide (i = aid))).map NodeRef.phase) ++
  ((g.identities.filter (fun i => decide (i.node_id = aid))).map (fun i => NodeRef.identity i.node_id)) ++
  ((g.laws.filter (fun l => decide (l.law_id = aid))).map (fun l => NodeRef.law l.law_id))

/-- MERGE (r:Ritual {ritual_id: coalesce(ritual_id, randomUUID())}): full
field replace ON MATCH (meta defaulted to the empty map), created_at stamped
only ON CREATE; also returns the Cypher variable r. -/
def mergeRitualNode (g : Graph) (p : RitualParams) (rid : String) : Graph × RitualNode :=
  match findRitual g rid with
  | some r =>
    let r2 := { r with name := p.name, code := p.code, version := p.version
                       effect := p.effect, checksum := p.checksum, meta := p.meta.getD [] }
    ({ g with rituals := g.rituals.map (fun x => if x.ritual_id = rid then r2 else x) }, r2)
  | none =>
    let r2 : RitualNode :=
      { ritual_id := rid, name := p.name, code := p.code, version := p.version
        effect := p.effect, checksum := p.checksum, meta := p.meta.getD []
        created_at := g.clock }
    ({ g with rituals := g.rituals ++ [r2] }, r2)

/-- UNWIND applies_to over the polymorphic MATCH, merging APPLIES_TO edges. -/
def addApplies (g : Graph) (rid : String) (ids : List String) : Graph :=
  let targets := (matchedRefs (appliesMatches g) ids).map (fun x => (rid, x))
  { g with appliesTo := mergeList g.appliesTo targets }

/-- UPSERT_RITUAL: merge on coalesce(ritual_id, randomUUID()); UNWIND
applies_to over the polymorphic MATCH merging APPLIES_TO edges;
RETURN r { .* }. -/
def runUpsertRitual (g : Graph) (p : RitualParams) (fresh : String) :
    Graph × Option RitualNode :=
  let rid := p.ritual_id.getD fresh
  let m := mergeRitualNode g p rid
  let g2 := addApplies m.1 rid p.applies_to
  if p.applies_to.any (fun aid => !(appliesMatches m.1 aid).isEmpty) then (tick g2, some m.2)
  else (tick g2, none)

/-- Input record for POST /memory/ritual (schemas.RitualIn); the route fixes
ritual_id = None and meta = {}. -/
structure RitualIn where
  name : String
  code : String
  version : String
  checksum : String
  effect : Option String
  applies_to : List String
deriving DecidableEq, Repr

/-- Route POST /memory/ritual. -/
def upsert_ritual (g : Graph) (p : RitualIn) (fresh : String) :
    Graph × Option RitualNode :=
  runUpsertRitual g
    { ritual_id := none, name := p.name, code := p.code, version := p.version
      checksum := p.checksum, effect := p.effect, meta := some [], applies_to := p.applies_to }
    fresh

/-- Parameter map for UPSERT_LAW (routes.upsert_law passes law_id = None). -/
structure LawParams where
  law_id : Option String
  name : String
  version : String
  text : String
  checksum : String
  active : Bool
deriving DecidableEq, Repr

/-- UPSERT_LAW: merge on coalesce(law_id, randomUUID()) with full field
replace ON MATCH and created_at only ON CREATE; RETURN l { .* }.  No UNWIND,
so a record is always returned. -/
def runUpsertLaw (g : Graph) (p : LawParams) (fresh : String) :
    Graph × Option LawNode :=
  let lid := p.law_id.getD fresh
  match findLaw g lid with
  | some l =>
    let l2 := { l with name := p.name, version := p.version, text := p.text
                       checksum := p.checksum, active := p.active }
    (tick { g with laws := g.laws.map (fun x => if x.law_id = lid then l2 else x) }, some l2)
  | none =>
    let l2 : LawNode :=
      { law_id := lid, name := p.name, version := p.version, text := p.text
        checksum := p.checksum, active := p.active, created_at := g.clock }
    (tick { g with laws := g.laws ++ [l2] }, some l2)

/-- Input record for POST /memory/law (schemas.LawIn). -/
structure LawIn where
  name : String
  version : String
  text : String
  checksum : String
  active : Bool
deriving DecidableEq, Repr

/-- Route POST /memory/law. -/
def upsert_law (g : Graph) (p : LawIn) (fresh : String) : Graph × Option LawNode :=
  runUpsertLaw g
    { law_id := none, name := p.name, version := p.version, text := p.text
      checksum := p.checksum, active := p.active }
    fresh

/-- Parameter map for CREATE_EVENT. -/
structure EventParams where
  event_id : Option String
  name : String
  whenTs : Nat
  meta : List (String × String)
  updates : List String
deriving DecidableEq, Repr

/-- Polymorphic lookup for CREATE_EVENT's updates UNWIND: MATCH (u) WHERE
u.state_id = uid OR u.law_id = uid OR u.ritual_id = uid OR u.claim_id = uid. -/
def updatedMatches (g : Graph) (uid : String) : List NodeRef :=
  ((g.states.filter (fun s => decide (s.state_id = uid))).map (fun s => NodeRef.state s.state_id)) ++
  ((g.laws.filter (fun l => decide (l.law_id = uid))).map (fun l => NodeRef.law l.law_id)) ++
  ((g.rituals.filter (fun r => decide (r.ritual_id = uid))).map (fun r => NodeRef.ritual r.ritual_id)) ++
  ((g.claims.filter (fun c => decide (c.claim_id = uid))).map (fun c => NodeRef.claim c.claim_id))

/-- MERGE (e:Event {event_id: coalesce(event_id, randomUUID())}): name, when
and meta are set both ON CREATE and ON MATCH; also returns the Cypher
variable e. -/
def mergeEventNode (g : Graph) (p : EventParams) (eid : String) : Graph × EventNode :=
  match findEvent g eid with
  | some e =>
    let e2 := { e with name := p.name, whenTs := p.whenTs, meta := p.meta }
    ({ g with events := g.events.map (fun x => if x.event_id = eid then e2 else x) }, e2)
  | none =>
    let e2 : EventNode := { event_id := eid, name := p.name, whenTs := p.whenTs, meta := p.meta }
    ({ g with events := g.events ++ [e2] }, e2)

/-- UNWIND updates over the polymorphic MATCH, merging UPDATED edges. -/
def addUpdates (g : Graph) (eid : String) (ids : List String) : Graph :=
  let targets := (matchedRefs (updatedMatches g) ids).map (fun x => (eid, x))
  { g with updated := mergeList g.updated targets }

/-- CREATE_EVENT: merge on coalesce(event_id, randomUUID()); UNWIND updates
over the polymorphic MATCH merging UPDATED edges; RETURN e { .* }. -/
def runCreateEvent (g : Graph) (p : EventParams) (fresh : String) :
    Graph × Option EventNode :=
  let eid := p.event_id.getD fresh
  let m := mergeEventNode g p eid
  let g2 := addUpdates m.1 eid p.updates
  if p.updates.any (fun uid => !(updatedMatches m.1 uid).isEmpty) then (tick g2, some m.2)
  else (tick g2, none)

/-- The record WHY_CHAIN returns: the claim's full field set plus the
collect(DISTINCT ...) support and contradiction sets. -/
structure WhyRow where
  claim : ClaimNode
  supports : List NodeRef
  contradicts : List String
deriving DecidableEq, Repr

/-- WHY_CHAIN: MATCH (c:Claim {claim_id}); OPTIONAL MATCH one hop of
SUPPORTED_BY and of CONTRADICTS; RETURN c { .* }, collect(DISTINCT sup),
collect(DISTINCT con).  A missing claim yields no rows at all; aggregation of
the optional matches ignores nulls, so absent edges give empty lists. -/
def runWhyChain (g : Graph) (claim_id : String) : Option WhyRow :=
  match findClaim g claim_id with
  | none => none
  | some c =>
    some { claim := c
           supports := (((g.supportedBy.filter (fun e => decide (e.1 = claim_id))).map (fun e => e.2))).dedup
           contradicts := (((g.contradicts.filter (fun e => decide (e.1 = claim_id))).map (fun e => e.2))).dedup }

/-- Route GET /query/why/claim_id: raises 404 when the statement returned no
rows (the claim does not exist), else returns the single aggregated row. -/
def why_chain (g : Graph) (claim_id : String) : Except ApiError WhyRow :=
  match runWhyChain g claim_id with
  | none => .error .notFound
  | some row => .ok row

/-- One entry of LATEST_SELF's affect list:
{target: x { .* }, ache: r.ache, tension: r.tension}.  When the state has no
FEELS edge the OPTIONAL MATCH leaves x and r null, and collect of the literal
map keeps one all-null entry. -/
structure AffectEntry where
  target : Option NodeRef
  ache : Option Int
  tension : Option Int
deriving DecidableEq, Repr

/-- The record LATEST_SELF returns. -/
structure LatestRow where
  state : StateNode
  evidence : List NodeRef
  affect : List AffectEntry
deriving DecidableEq, Repr

/-- The SelfStates matched by
MATCH (i:Identity {node_id})-[:HAS_STATE]->(s:SelfState): one row per edge,
requiring the identity node, the edge and the state node. -/
def linkedStates (g : Graph) (node_id : String) : List StateNode :=
  if (findIdentity g node_id).isNone then []
  else (g.hasState.filter (fun e => decide (e.1 = node_id))).filterMap (fun e => findState g e.2.1)

/-- ORDER BY s.t DESC LIMIT 1: some state with the maximum t (ties broken by
keeping the earlier row, one deterministic choice of the backend-dependent
order). -/
def maxByT : List StateNode → Option StateNode
  | [] => none
  | st :: rest =>
    match maxByT rest with
    | none => some st
    | some m => if m.t > st.t then some m else some st

/-- LATEST_SELF: pick the max-t state linked to the identity, then OPTIONAL
MATCH its EVIDENCED_BY targets and FEELS edges and aggregate both with
collect(DISTINCT ...).  No linked state means zero rows. -/
def runLatestSelf (g : Graph) (node_id : String) : Option LatestRow :=
  match maxByT (linkedStates g node_id) with
  | none => none
  | some st =>
    let fEdges := g.feels.filter (fun e => decide (e.src = st.state_id))
    let affectEntries : List AffectEntry :=
      if fEdges.isEmpty then [{ target := none, ache := none, tension := none }]
      else (fEdges.map (fun e =>
        { target := some e.target, ache := some e.ache, tension := some e.tension })).dedup
    some { state := st
           evidence := (((g.evidencedBy.filter (fun e => decide (e.1 = st.state_id))).map (fun e => e.2))).dedup
           affect := affectEntries }

/-- Route GET /query/latest-self/node_id: returns the single row, or an empty
record (not an error) when there is none. -/
def latest_self (g : Graph) (node_id : String) : Option LatestRow :=
  runLatestSelf g node_id

/-- Index of the first element whose key equals i. -/
def idxOf (key : α → String) (i : String) : List α → Option Nat
  | [] => none
  | x :: xs => if key x = i then some 0 else (idxOf key i xs).map (· + 1)

/-- Creation rank of a SelfState: its position in the store's creation-ordered
state list. -/
def rankOf (g : Graph) (sid : String) : Option Nat :=
  idxOf StateNode.state_id sid g.states

/-- The generated uuid does not collide with any stored SelfState id. -/
def stateIdFresh (g : Graph) (fresh : String) : Prop :=
  ∀ st ∈ g.states, st.state_id ≠ fresh

instance (g : Graph) (fresh : String) : Decidable (stateIdFresh g fresh) := by
  unfold stateIdFresh; infer_instance

/-- A walk along DERIVED_FROM edges: consecutive entries of the list are
joined by a lineage edge. -/
def dfChain (g : Graph) : List String → Prop
  | a :: b :: rest => (a, b) ∈ g.derivedFrom ∧ dfChain g (b :: rest)
  | _ => True

instance (g : Graph) (l : List String) : Decidable (dfChain g l) := by
  induction l with
  | nil => exact .isTrue trivial
  | cons a rest ih =>
    cases rest with
    | nil => exact .isTrue trivial
    | cons b rest2 => unfold dfChain; exact instDecidableAnd

/-- The graphs reachable through the exposed write operations, starting from
the empty store.  Each constructor is one route handler; fresh-id arguments
stand for the uuids the statements generate, and the state constructor carries
the uuid-freshness facts (a freshly generated uuid equals neither a stored
state id nor the caller-supplied lineage reference).  routes.upsert_state
always passes state_id = None, which is why StateUpsertIn has no state id. -/
inductive Reachable : Graph → Prop where
  | init : Reachable Graph.empty
  | identity (g : Graph) (p : IdentityIn) :
      Reachable g → Reachable (upsert_identity g p).1
  | consent (g : Graph) (p : ConsentIn) (fresh : String) :
      Reachable g → Reachable (create_consent g p fresh).1
  | thought (g : Graph) (p : ThoughtIn) (fresh : String) :
      Reachable g → Reachable (upsert_thought g p fresh).1
  | state (g : Graph) (b : StateUpsertIn) (fresh : String) (g2 : Graph)
      (row : Option StateNode) :
      Reachable g → stateIdFresh g fresh →
      b.derived_from_state_id ≠ some fresh →
      upsert_state g b fresh = .ok (g2, row) → Reachable g2
  | claim (g : Graph) (p : ClaimIn) (fresh : String) :
      Reachable g → Reachable (upsert_claim g p fresh).1
  | ritual (g : Graph) (p : RitualIn) (fresh : String) :
      Reachable g → Reachable (upsert_ritual g p fresh).1
  | law (g : Graph) (p : LawIn) (fresh : String) :
      Reachable g → Reachable (upsert_law g p fresh).1
  | event (g : Graph) (p : EventParams) (fresh : String) :
      Reachable g → Reachable (runCreateEvent g p fresh).1

/-- Lineage invariant: every DERIVED_FROM edge runs from a later-created
SelfState to an earlier-created one, and no state has two outgoing lineage
edges. -/
def DFInv (g : Graph) : Prop :=
  (∀ e ∈ g.derivedFrom, ∃ i j, rankOf g e.1 = some i ∧ rankOf g e.2 = some j ∧ j < i) ∧
  (∀ e ∈ g.derivedFrom, ∀ e2 ∈ g.derivedFrom, e.1 = e2.1 → e = e2)

/-- Fixture: identity payload for node a. -/
def wIdentityA : IdentityIn := { node_id := "a", label := some "agent", kind := none }

/-- Fixture: a public consent for node a. -/
def wConsentPub : ConsentIn :=
  { node_id := "a", scope := "public", conditions := [], granted_at := none, revoked_at := none }

/-- Fixture: store holding only identity a. -/
def wg1 : Graph := (upsert_identity Graph.empty wIdentityA).1

/-- Fixture: store holding identity a with a non-revoked public consent. -/
def wg2 : Graph := (create_consent wg1 wConsentPub "c1").1

/-- Fixture: scalar coordinates for a state upsert. -/
def wVector : VectorIn :=
  { sigma := 1, s := 2, tau := 3, chi := 4, lambda_ := 5, rho := 6, embed := [7] }

/-- Fixture: a private-scope state upsert for node a with empty relationship
lists. -/
def wStateReq : StateUpsertIn :=
  { node_id := "a", t := 5, vector := wVector, tags := ["x"], phase_id := none
    derived_from_state_id := none, evidence := [], feels := [], scope := "private" }

/-- Fixture: the store after upserting wStateReq on wg2 with generated id s1. -/
def c10After : Graph := ((upsert_state wg2 wStateReq "s1").toOption.getD (wg2, none)).1

/-- Fixture: the row returned by that upsert. -/
def c10Row : Option StateNode := ((upsert_state wg2 wStateReq "s1").toOption.getD (wg2, none)).2

/-- Fixture: a second state upsert deriving from state s1. -/
def wStateReq2 : StateUpsertIn := { wStateReq with t := 6, derived_from_state_id := some "s1" }

/-- Fixture: the store after the second state upsert with generated id s2. -/
def c9After : Graph := ((upsert_state c10After wStateReq2 "s2").toOption.getD (c10After, none)).1

/-- Fixture: the row returned by the second state upsert. -/
def c9Row : Option StateNode := ((upsert_state c10After wStateReq2 "s2").toOption.getD (c10After, none)).2

/-- Fixture: a state upsert whose evidence names a never-seen id. -/
def wGhostReq : StateUpsertIn := { wStateReq with evidence := ["ghost"] }

/-- Fixture: the store after the ghost-evidence upsert. -/
def c5After : Graph := ((upsert_state wg2 wGhostReq "s3").toOption.getD (wg2, none)).1

/-- Fixture: a thought with no glyphs but one mentioned claim. -/
def wThoughtMention : ThoughtIn :=
  { thought_id := some "t9", kind := "thought", text := "m-only", tokens := none, embed := []
    ache := 0, drift := 0, glyph_ids := [], mentions_claim_ids := ["m"], source_id := none }

/-- Fixture: a thought payload with all relationship lists empty (the schema
defaults). -/
def wThoughtBare : ThoughtIn :=
  { thought_id := some "t1", kind := "thought", text := "hello", tokens := some 3, embed := [1]
    ache := 0, drift := 0, glyph_ids := [], mentions_claim_ids := [], source_id := none }

/-- Fixture: a thought wiring one glyph and one mentioned claim. -/
def wThoughtFull : ThoughtIn :=
  { wThoughtBare with thought_id := some "t2", glyph_ids := ["g1"], mentions_claim_ids := ["m1"] }

/-- Fixture: a materialized claim node used by the why-chain witness. -/
def wClaimC1 : ClaimNode :=
  { claim_id := "c1", text := some "w", truthiness := some 1, confidence := some 1
    created_at := some 0 }

/-- Fixture: a store with claim c1 supported by a thought and an artifact and
contradicting claim c2. -/
def wgWhy : Graph :=
  { Graph.empty with
      claims := [wClaimC1, { claim_id := "c2", text := none, truthiness := none
                             confidence := none, created_at := none }]
      supportedBy := [("c1", NodeRef.thought "t1"), ("c1", NodeRef.artifact "a1")]
      contradicts := [("c1", "c2")] }

/-- Fixture: three states for identity a with t = 1, 2, 3. -/
def wStateT (sid : String) (tv : Int) : StateNode :=
  { state_id := sid, t := tv, sigma := 0, s := 0, tau := 0, chi := 0, lambda_ := 0
    rho := 0, embed := [], tags := [], created_at := 0 }

/-- Fixture: a store where identity a has three states (t = 1, 2, 3), the
t = 3 state carrying one evidence target and one affect edge. -/
def wgLatest : Graph :=
  { Graph.empty with
      identities := [{ node_id := "a", label := none, kind := none, created_at := some 0 }]
      states := [wStateT "s1" 1, wStateT "s2" 2, wStateT "s3" 3]
      claims := [{ claim_id := "cl", text := none, truthiness := none
                   confidence := none, created_at := none }]
      hasState := [("a", "s1", 0), ("a", "s2", 1), ("a", "s3", 2)]
      evidencedBy := [("s3", NodeRef.claim "cl")]
      feels := [{ src := "s3", target := NodeRef.claim "cl", ache := 2, tension := 3 }] }

/-- Fixture: the row latest_self returns on wgLatest. -/
def wLatestRow : LatestRow :=
  (latest_self wgLatest "a").getD { state := wStateT "s0" 0, evidence := [], affect := [] }

/-- Fixture: a state upsert for a different node and scope. -/
def wStateReqB : StateUpsertIn := { wStateReq with node_id := "b", scope := "shared" }

/-- Fixture: stored identity node a. -/
def wgFullIdentity : IdentityNode :=
  { node_id := "a", label := some "agent", kind := none, created_at := some 0 }

/-- Fixture: stored consent node c1. -/
def wgFullConsent : ConsentNode :=
  { consent_id := "c1", scope := "public", conditions := [], granted_at := 0, revoked_at := none }

/-- Fixture: stored thought node t1. -/
def wgFullThought : ThoughtNode :=
  { thought_id := "t1", kind := "thought", text := "old", tokens := none
    embed := [], ache := 0, drift := 0, created_at := 3 }

/-- Fixture: stored ritual node r1. -/
def wgFullRitual : RitualNode :=
  { ritual_id := "r1", name := "n", code := "c", version := "v", effect := none
    checksum := "h", meta := [], created_at := 4 }

/-- Fixture: stored law node l1. -/
def wgFullLaw : LawNode :=
  { law_id := "l1", name := "n", version := "v", text := "t", checksum := "h"
    active := true, created_at := 5 }

/-- Fixture: stored event node e1. -/
def wgFullEvent : EventNode := { event_id := "e1", name := "n", whenTs := 6, meta := [] }

/-- Fixture: a store holding one node of every entity kind, for exercising
the on-match branches of the upserts. -/
def wgFull : Graph :=
  { Graph.empty with
      identities := [wgFullIdentity]
      consents := [wgFullConsent]
      thoughts := [wgFullThought]
      states := [wStateT "s1" 1]
      claims := [wClaimC1]
      rituals := [wgFullRitual]
      laws := [wgFullLaw]
      events := [wgFullEvent]
      consentEdges := [("a", "c1")] }

/-- Fixture: identity payload re-upserting node a with new field values. -/
def wIdentityUpd : IdentityIn := { node_id := "a", label := some "y", kind := some "k" }

/-- Fixture: consent payload re-used against the existing consent id c1. -/
def wConsentUpd : ConsentIn :=
  { node_id := "a", scope := "private", conditions := [("k", "v")], granted_at := some 9
    revoked_at := some 9 }

/-- Fixture: thought payload re-upserting t1 with new field values. -/
def wThoughtUpd : ThoughtIn :=
  { thought_id := some "t1", kind := "note", text := "new", tokens := some 9, embed := [2]
    ache := 1, drift := 2, glyph_ids := ["g2"], mentions_claim_ids := ["m2"], source_id := none }

/-- Fixture: claim payload re-upserting c1 with new field values. -/
def wClaimUpd : ClaimIn :=
  { claim_id := some "c1", text := "nt", truthiness := 2, confidence := 3
    support_ids := ["t1"], contradicts_ids := [] }

/-- Fixture: ritual parameters re-upserting r1 with new field values. -/
def wRitualUpd : RitualParams :=
  { ritual_id := some "r1", name := "n2", code := "c2", version := "v2", checksum := "h2"
    effect := some "e", meta := none, applies_to := [] }

/-- Fixture: law parameters re-upserting l1 with new field values. -/
def wLawUpd : LawParams :=
  { law_id := some "l1", name := "n2", version := "v2", text := "t2", checksum := "h2"
    active := false }

/-- Fixture: event parameters re-merging e1 with new field values. -/
def wEventUpd : EventParams :=
  { event_id := some "e1", name := "n2", whenTs := 7, meta := [("x", "y")], updates := [] }

/-- Fixture: state parameters re-upserting s1 with new field values. -/
def wStateUpd : StateParams :=
  { node_id := "a", state_id := some "s1", t := 9, sigma := 1, s := 1, tau := 1, chi := 1
    lambda_ := 1, rho := 1, embed := [9], tags := ["z"], phase_id := none
    derived_from_state_id := none, evidence := [], feels := [] }

/-- Fixture: claim payload with empty relationship lists. -/
def wClaimBare : ClaimIn :=
  { claim_id := some "c9", text := "b", truthiness := 0, confidence := 0
    support_ids := [], contradicts_ids := [] }

theorem mem_mergeList [DecidableEq α] (old new : List α) (a : α) :
    a ∈ mergeList old new ↔ a ∈ old ∨ a ∈ new := by
  induction new generalizing old with
  | nil => simp [mergeList]
  | cons x xs ih =>
    show a ∈ mergeList (if x ∈ old then old else old ++ [x]) xs ↔ _
    rw [ih]
    by_cases hx : x ∈ old
    · simp only [if_pos hx, List.mem_cons]
      constructor
      · tauto
      · rintro (h1 | h2 | h3)
        · exact Or.inl h1
        · exact Or.inl (h2 ▸ hx)
        · exact Or.inr h3
    · simp only [if_neg hx, List.mem_append, List.mem_singleton, List.mem_cons]
      tauto

theorem lookupBy_eq_none_iff (key : α → String) (i : String) (l : List α) :
    lookupBy key i l = none ↔ ∀ x ∈ l, key x ≠ i := by
  induction l with
  | nil => simp [lookupBy]
  | cons x xs ih =>
    by_cases h : key x = i
    · simp [lookupBy, h]
    · simp [lookupBy, h, ih]

theorem lookupBy_some_mem (key : α → String) (i : String) (l : List α) (a : α)
    (h : lookupBy key i l = some a) : a ∈ l ∧ key a = i := by
  induction l with
  | nil => exact absurd h (by simp [lookupBy])
  | cons x xs ih =>
    by_cases hx : key x = i
    · rw [lookupBy, if_pos hx, Option.some_inj] at h
      subst h
      exact ⟨List.mem_cons_self x xs, hx⟩
    · rw [lookupBy, if_neg hx] at h
      rcases ih h with ⟨hm, hk⟩
      exact ⟨List.mem_cons_of_mem x hm, hk⟩

theorem lookupBy_append_of_some (key : α → String) (i : String) (l1 l2 : List α) (a : α)
    (h : lookupBy key i l1 = some a) : lookupBy key i (l1 ++ l2) = some a := by
  induction l1 with
  | nil => exact absurd h (by simp [lookupBy])
  | cons x xs ih =>
    by_cases hx : key x = i
    · rw [lookupBy, if_pos hx, Option.some_inj] at h
      subst h
      simp [lookupBy, hx]
    · rw [lookupBy, if_neg hx] at h
      simp only [List.cons_append, lookupBy, if_neg hx]
      exact ih h

theorem lookupBy_append_of_none (key : α → String) (i : String) (l1 l2 : List α)
    (h : lookupBy key i l1 = none) : lookupBy key i (l1 ++ l2) = lookupBy key i l2 := by
  induction l1 with
  | nil => simp
  | cons x xs ih =>
    by_cases hx : key x = i
    · rw [lookupBy, if_pos hx] at h
      exact absurd h (by simp)
    · rw [lookupBy, if_neg hx] at h
      simp only [List.cons_append, lookupBy, if_neg hx]
      exact ih h

theorem lookupBy_map_const (key : α → String) (i : String) (c : α) (l : List α)
    (hc : key c = i) (h : (lookupBy key i l).isSome) :
    lookupBy key i (l.map (fun x => if key x = i then c else x)) = some c := by
  induction l with
  | nil => simp [lookupBy] at h
  | cons x xs ih =>
    by_cases hx : key x = i
    · simp only [List.map_cons, if_pos hx, lookupBy, hc]
      simp
    · rw [lookupBy, if_neg hx] at h
      simp only [List.map_cons, if_neg hx, lookupBy, if_neg hx]
      exact ih h

theorem consent_rows_mem (g : Graph) (nid scope : String) (c : ConsentNode) :
    c ∈ consentRows g nid scope ↔
      ((findIdentity g nid).isSome ∧ c ∈ g.consents ∧
        (nid, c.consent_id) ∈ g.consentEdges ∧ c.revoked_at = none ∧
        (c.scope = scope ∨ c.scope = "public")) := by
  unfold consentRows
  cases hfi : findIdentity g nid with
  | none => simp [hfi]
  | some v =>
    rw [if_neg (by simp [hfi])]
    rw [List.mem_filter]
    simp [hfi, Bool.and_eq_true, decide_eq_true_iff, Option.isNone_iff_eq_none,
      Bool.or_eq_true, and_assoc]

/-- Claim C1: authorize(identity_id, requested_scope) — the consent guard —
returns true iff the identity exists with at least one CONSENT edge to a
Consent whose revoked_at is unset and whose scope equals the requested scope
or equals public; in particular a revoked consent (revoked_at set) never
satisfies the check. -/
theorem consent_guard_characterization (g : Graph) (nid scope : String) :
    consentGuard g nid scope = true ↔
      ((findIdentity g nid).isSome ∧ ∃ c ∈ g.consents,
        (nid, c.consent_id) ∈ g.consentEdges ∧ c.revoked_at = none ∧
        (c.scope = scope ∨ c.scope = "public")) := by
  unfold consentGuard
  rw [Bool.not_eq_true', List.isEmpty_eq_false_iff_exists_mem]
  constructor
  · rintro ⟨c, hc⟩
    rw [consent_rows_mem] at hc
    exact ⟨hc.1, c, hc.2.1, hc.2.2⟩
  · rintro ⟨hid, c, hc, he, hr, hs⟩
    exact ⟨c, (consent_rows_mem g nid scope c).2 ⟨hid, hc, he, hr, hs⟩⟩

/-- Claim C2: the state-upsert route runs the consent check before any write,
and when the check is false the call is rejected with PermissionDenied — no
store write occurs (no result graph is produced; the store is untouched). -/
theorem upsert_state_rejects_without_consent (g : Graph) (b : StateUpsertIn) (fresh : String)
    (h : consentGuard g b.node_id b.scope = false) :
    upsert_state g b fresh = .error .permissionDenied := by
  simp [upsert_state, h]

/-- Witness for C2 at a concrete store with no consent. -/
theorem upsert_state_rejects_without_consent_witness :
    upsert_state Graph.empty wStateReqB "s7" = .error .permissionDenied :=
  upsert_state_rejects_without_consent Graph.empty wStateReqB "s7" (by decide)

/-- Counterexample for claim C3: with no Identity named a in the store, the
state upsert fails with a permission error, not the claimed not-found error
(the consent gate runs first and can never hold for a missing identity). -/
theorem upsert_state_missing_identity_gives_permission_denied :
    upsert_state Graph.empty wStateReq "s1" = .error .permissionDenied ∧
    ApiError.permissionDenied ≠ ApiError.notFound :=
  ⟨rfl, by decide⟩

theorem findIdentity_mergeIdentityBare (g : Graph) (nid : String) :
    (findIdentity (mergeIdentityBare g nid) nid).isSome := by
  unfold mergeIdentityBare
  by_cases h : (findIdentity g nid).isSome
  · simp [h]
  · rw [if_neg h]
    unfold findIdentity at h ⊢
    rw [Option.not_isSome_iff_eq_none] at h
    show (lookupBy IdentityNode.node_id nid (g.identities ++ [_])).isSome
    rw [lookupBy_append_of_none _ _ _ _ h]
    simp [lookupBy]

theorem create_consent_identities (g : Graph) (p : ConsentIn) (fresh : String) :
    (create_consent g p fresh).1.identities = (mergeIdentityBare g p.node_id).identities := by
  unfold create_consent runCreateConsent
  cases h : findConsent (mergeIdentityBare g p.node_id) fresh <;> simp [h, tick]

/-- Claim C3 (amended): when the named Identity does not exist, upsert_state
fails with a permission error (403) — the consent gate precedes the statement
and cannot succeed for a missing identity — rather than a not-found error;
other entity kinds auto-create their missing anchor (create_consent merges a
bare Identity rather than failing). -/
theorem upsert_state_missing_identity_behavior (g : Graph) (b : StateUpsertIn) (fresh : String)
    (p : ConsentIn) (cfresh : String)
    (h : findIdentity g b.node_id = none) :
    upsert_state g b fresh = .error .permissionDenied ∧
    (findIdentity (create_consent g p cfresh).1 p.node_id).isSome := by
  constructor
  · have hg : consentGuard g b.node_id b.scope = false := by
      simp [consentGuard, consentRows, h]
    simp [upsert_state, hg]
  · have h2 : (create_consent g p cfresh).1.identities = (mergeIdentityBare g p.node_id).identities :=
      create_consent_identities g p cfresh
    unfold findIdentity at *
    rw [h2]
    exact findIdentity_mergeIdentityBare g p.node_id

/-- Witness for the amended C3 at the empty store. -/
theorem upsert_state_missing_identity_behavior_witness :
    upsert_state Graph.empty wStateReq "s4" = .error .permissionDenied ∧
    (findIdentity (create_consent Graph.empty wConsentPub "c2").1 wConsentPub.node_id).isSome :=
  upsert_state_missing_identity_behavior Graph.empty wStateReq "s4" wConsentPub "c2" rfl

theorem mergeIdentityBare_consents (g : Graph) (nid : String) :
    (mergeIdentityBare g nid).consents = g.consents := by
  unfold mergeIdentityBare
  split <;> rfl

theorem addThoughtSource_fields (g : Graph) (tid : String) (src : Option String) :
    (addThoughtSource g tid src).thoughts = g.thoughts ∧
    (addThoughtSource g tid src).claims = g.claims ∧
    (addThoughtSource g tid src).glyphs = g.glyphs ∧
    (addThoughtSource g tid src).usesGlyph = g.usesGlyph ∧
    (addThoughtSource g tid src).mentions = g.mentions := by
  unfold addThoughtSource
  cases src with
  | none => exact ⟨rfl, rfl, rfl, rfl, rfl⟩
  | some sid =>
    by_cases hsrc : sid ∈ g.sources
    · refine ⟨?_, ?_, ?_, ?_, ?_⟩ <;> simp only [if_pos hsrc]
    · refine ⟨?_, ?_, ?_, ?_, ?_⟩ <;> simp only [if_neg hsrc]

theorem addInPhase_fields (g : Graph) (sid : String) (pid : Option String) :
    (addInPhase g sid pid).states = g.states ∧
    (addInPhase g sid pid).derivedFrom = g.derivedFrom ∧
    (addInPhase g sid pid).claims = g.claims ∧
    (addInPhase g sid pid).thoughts = g.thoughts ∧
    (addInPhase g sid pid).tests = g.tests ∧
    (addInPhase g sid pid).artifacts = g.artifacts ∧
    (addInPhase g sid pid).evidencedBy = g.evidencedBy ∧
    (addInPhase g sid pid).phases = g.phases := by
  unfold addInPhase
  cases pid with
  | none => exact ⟨rfl, rfl, rfl, rfl, rfl, rfl, rfl, rfl⟩
  | some ph =>
    by_cases hp : ph ∈ g.phases
    · refine ⟨?_, ?_, ?_, ?_, ?_, ?_, ?_, ?_⟩ <;> simp only [if_pos hp]
    · refine ⟨?_, ?_, ?_, ?_, ?_, ?_, ?_, ?_⟩ <;> simp only [if_neg hp]

theorem addDerived_fields (g : Graph) (sid : String) (prev : Option String) :
    (addDerived g sid prev).states = g.states ∧
    (addDerived g sid prev).claims = g.claims ∧
    (addDerived g sid prev).thoughts = g.thoughts ∧
    (addDerived g sid prev).tests = g.tests ∧
    (addDerived g sid prev).artifacts = g.artifacts ∧
    (addDerived g sid prev).evidencedBy = g.evidencedBy := by
  unfold addDerived
  cases prev with
  | none => exact ⟨rfl, rfl, rfl, rfl, rfl, rfl⟩
  | some pr =>
    by_cases hp : (findState g pr).isSome
    · refine ⟨?_, ?_, ?_, ?_, ?_, ?_⟩ <;> simp only [if_pos hp]
    · refine ⟨?_, ?_, ?_, ?_, ?_, ?_⟩ <;> simp only [if_neg hp]

theorem runUpsertIdentity_on_match (g : Graph) (p : IdentityIn) (i : IdentityNode)
    (h : findIdentity g p.node_id = some i) :
    (runUpsertIdentity g p).2 = some i ∧ (runUpsertIdentity g p).1.identities = g.identities := by
  unfold runUpsertIdentity
  rw [h]
  exact ⟨rfl, rfl⟩

theorem runUpsertThought_thoughts_proj (g : Graph) (p : ThoughtIn) (fresh : String) :
    (runUpsertThought g p fresh).1.thoughts =
      (mergeThoughtNode g p (p.thought_id.getD fresh)).1.thoughts := by
  unfold runUpsertThought
  simp only []
  split
  · rfl
  · split
    · rfl
    · exact (addThoughtSource_fields _ _ _).1

theorem runUpsertThought_on_match (g : Graph) (p : ThoughtIn) (fresh : String) (th : ThoughtNode)
    (h : findThought g (p.thought_id.getD fresh) = some th) :
    findThought (runUpsertThought g p fresh).1 (p.thought_id.getD fresh) =
      some { th with kind := p.kind, text := p.text, tokens := p.tokens
                     embed := p.embed, ache := p.ache, drift := p.drift } := by
  have hk : th.thought_id = p.thought_id.getD fresh :=
    (lookupBy_some_mem _ _ _ _ h).2
  have hs : (lookupBy ThoughtNode.thought_id (p.thought_id.getD fresh) g.thoughts).isSome := by
    unfold findThought at h
    simp [h]
  have hm : (mergeThoughtNode g p (p.thought_id.getD fresh)).1.thoughts =
      g.thoughts.map (fun x =>
        if x.thought_id = p.thought_id.getD fresh then
          { th with kind := p.kind, text := p.text, tokens := p.tokens
                    embed := p.embed, ache := p.ache, drift := p.drift }
        else x) := by
    unfold mergeThoughtNode
    rw [h]
  unfold findThought
  rw [runUpsertThought_thoughts_proj, hm]
  exact lookupBy_map_const _ _ _ _ hk hs

theorem runCreateConsent_on_match (g : Graph) (cid : String) (fresh : String) (p : ConsentIn)
    (c : ConsentNode) (h : findConsent g cid = some c) :
    findConsent (runCreateConsent g (some cid) fresh p).1 cid =
      some { c with revoked_at := p.revoked_at } := by
  have hk : c.consent_id = cid := (lookupBy_some_mem _ _ _ _ h).2
  have hg1 : findConsent (mergeIdentityBare g p.node_id) cid = some c := by
    unfold findConsent at h ⊢
    rw [mergeIdentityBare_consents]
    exact h
  have hs : (lookupBy ConsentNode.consent_id cid (mergeIdentityBare g p.node_id).consents).isSome := by
    unfold findConsent at hg1
    simp [hg1]
  unfold runCreateConsent
  simp only [Option.getD_some, hg1]
  unfold findConsent tick
  exact lookupBy_map_const _ _ _ _ hk hs

theorem runUpsertClaim_claims_proj (g : Graph) (p : ClaimIn) (fresh : String) :
    (runUpsertClaim g p fresh).1.claims =
      (mergeClaimNode g p (p.claim_id.getD fresh)).1.claims := by
  unfold runUpsertClaim
  simp only []
  split
  · split <;> rfl
  · rfl

theorem runUpsertClaim_on_match (g : Graph) (p : ClaimIn) (fresh : String) (c : ClaimNode)
    (h : findClaim g (p.claim_id.getD fresh) = some c) :
    findClaim (runUpsertClaim g p fresh).1 (p.claim_id.getD fresh) =
      some { c with text := some p.text, truthiness := some p.truthiness
                    confidence := some p.confidence } := by
  have hk : c.claim_id = p.claim_id.getD fresh := (lookupBy_some_mem _ _ _ _ h).2
  have hs : (lookupBy ClaimNode.claim_id (p.claim_id.getD fresh) g.claims).isSome := by
    unfold findClaim at h
    simp [h]
  have hm : (mergeClaimNode g p (p.claim_id.getD fresh)).1.claims =
      g.claims.map (fun x =>
        if x.claim_id = p.claim_id.getD fresh then
          { c with text := some p.text, truthiness := some p.truthiness
                   confidence := some p.confidence }
        else x) := by
    unfold mergeClaimNode
    rw [h]
  unfold findClaim
  rw [runUpsertClaim_claims_proj, hm]
  exact lookupBy_map_const _ _ _ _ hk hs

theorem runUpsertRitual_rituals_proj (g : Graph) (p : RitualParams) (fresh : String) :
    (runUpsertRitual g p fresh).1.rituals =
      (mergeRitualNode g p (p.ritual_id.getD fresh)).1.rituals := by
  unfold runUpsertRitual
  simp only []
  split <;> rfl

theorem runUpsertRitual_on_match (g : Graph) (p : RitualParams) (fresh : String) (r : RitualNode)
    (h : findRitual g (p.ritual_id.getD fresh) = some r) :
    findRitual (runUpsertRitual g p fresh).1 (p.ritual_id.getD fresh) =
      some { r with name := p.name, code := p.code, version := p.version
                    effect := p.effect, checksum := p.checksum, meta := p.meta.getD [] } := by
  have hk : r.ritual_id = p.ritual_id.getD fresh := (lookupBy_some_mem _ _ _ _ h).2
  have hs : (lookupBy RitualNode.ritual_id (p.ritual_id.getD fresh) g.rituals).isSome := by
    unfold findRitual at h
    simp [h]
  have hm : (mergeRitualNode g p (p.ritual_id.getD fresh)).1.rituals =
      g.rituals.map (fun x =>
        if x.ritual_id = p.ritual_id.getD fresh then
          { r with name := p.name, code := p.code, version := p.version
                   effect := p.effect, checksum := p.checksum, meta := p.meta.getD [] }
        else x) := by
    unfold mergeRitualNode
    rw [h]
  unfold findRitual
  rw [runUpsertRitual_rituals_proj, hm]
  exact lookupBy_map_const _ _ _ _ hk hs

theorem runUpsertLaw_on_match (g : Graph) (p : LawParams) (fresh : String) (l : LawNode)
    (h : findLaw g (p.law_id.getD fresh) = some l) :
    findLaw (runUpsertLaw g p fresh).1 (p.law_id.getD fresh) =
      some { l with name := p.name, version := p.version, text := p.text
                    checksum := p.checksum, active := p.active } := by
  have hk : l.law_id = p.law_id.getD fresh := (lookupBy_some_mem _ _ _ _ h).2
  have hs : (lookupBy LawNode.law_id (p.law_id.getD fresh) g.laws).isSome := by
    unfold findLaw at h
    simp [h]
  unfold runUpsertLaw
  simp only [h]
  unfold findLaw tick
  exact lookupBy_map_const _ _ _ _ hk hs

theorem runCreateEvent_events_proj (g : Graph) (p : EventParams) (fresh : String) :
    (runCreateEvent g p fresh).1.events =
      (mergeEventNode g p (p.event_id.getD fresh)).1.events := by
  unfold runCreateEvent
  simp only []
  split <;> rfl

theorem runCreateEvent_on_match (g : Graph) (p : EventParams) (fresh : String) (e : EventNode)
    (h : findEvent g (p.event_id.getD fresh) = some e) :
    findEvent (runCreateEvent g p fresh).1 (p.event_id.getD fresh) =
      some { e with name := p.name, whenTs := p.whenTs, meta := p.meta } := by
  have hk : e.event_id = p.event_id.getD fresh := (lookupBy_some_mem _ _ _ _ h).2
  have hs : (lookupBy EventNode.event_id (p.event_id.getD fresh) g.events).isSome := by
    unfold findEvent at h
    simp [h]
  have hm : (mergeEventNode g p (p.event_id.getD fresh)).1.events =
      g.events.map (fun x =>
        if x.event_id = p.event_id.getD fresh then
          { e with name := p.name, whenTs := p.whenTs, meta := p.meta }
        else x) := by
    unfold mergeEventNode
    rw [h]
  unfold findEvent
  rw [runCreateEvent_events_proj, hm]
  exact lookupBy_map_const _ _ _ _ hk hs

theorem runUpsertState_states_proj (g : Graph) (p : StateParams) (fresh : String)
    (v : IdentityNode) (hid : findIdentity g p.node_id = some v) :
    (runUpsertState g p fresh).1.states =
      (mergeStateNode g p (p.state_id.getD fresh)).1.states := by
  unfold runUpsertState
  simp only [hid]
  split
  · split
    · exact ((addDerived_fields _ _ _).1).trans (addInPhase_fields _ _ _).1
    · exact ((addDerived_fields _ _ _).1).trans (addInPhase_fields _ _ _).1
  · exact ((addDerived_fields _ _ _).1).trans (addInPhase_fields _ _ _).1

theorem runUpsertState_on_match (g : Graph) (p : StateParams) (fresh : String)
    (v : IdentityNode) (st : StateNode)
    (hid : findIdentity g p.node_id = some v)
    (h : findState g (p.state_id.getD fresh) = some st) :
    findState (runUpsertState g p fresh).1 (p.state_id.getD fresh) =
      some { st with t := p.t, sigma := p.sigma, s := p.s, tau := p.tau
                     chi := p.chi, lambda_ := p.lambda_, rho := p.rho
                     embed := p.embed, tags := p.tags } := by
  have hk : st.state_id = p.state_id.getD fresh := (lookupBy_some_mem _ _ _ _ h).2
  have hs : (lookupBy StateNode.state_id (p.state_id.getD fresh) g.states).isSome := by
    unfold findState at h
    simp [h]
  have hm : (mergeStateNode g p (p.state_id.getD fresh)).1.states =
      g.states.map (fun x =>
        if x.state_id = p.state_id.getD fresh then
          { st with t := p.t, sigma := p.sigma, s := p.s, tau := p.tau
                    chi := p.chi, lambda_ := p.lambda_, rho := p.rho
                    embed := p.embed, tags := p.tags }
        else x) := by
    unfold mergeStateNode
    rw [h]
  unfold findState
  rw [runUpsertState_states_proj g p fresh v hid, hm]
  exact lookupBy_map_const _ _ _ _ hk hs


/-- Counterexample for claim C4: re-upserting Identity a (stored label agent)
with label y returns and keeps the old stored fields — UPSERT_IDENTITY has no
ON MATCH SET, so not every entity kind replaces its mutable fields on an
existing key. -/
theorem identity_reupsert_keeps_stored_fields :
    (upsert_identity wg1 wIdentityUpd).2 =
      some { node_id := "a", label := some "agent", kind := none, created_at := some 0 } ∧
    (upsert_identity wg1 wIdentityUpd).1.identities = wg1.identities ∧
    (some "agent" : Option String) ≠ some "y" :=
  ⟨rfl, rfl, by decide⟩

/-- Claim C4 (amended): on an existing primary key, Thought, Claim, Ritual,
Law, Event and SelfState upserts overwrite all mutable fields with the new
values (full replace) and never touch the stored creation timestamp; an
Identity upsert leaves every stored field unchanged (fields are set only ON
CREATE); a Consent merge on an existing consent_id overwrites only revoked_at,
leaving scope, conditions and granted_at unchanged. -/
theorem upsert_on_match_field_semantics (g : Graph) (fresh : String) :
    (∀ p i, findIdentity g p.node_id = some i →
        (runUpsertIdentity g p).2 = some i ∧
        (runUpsertIdentity g p).1.identities = g.identities) ∧
    (∀ cid p c, findConsent g cid = some c →
        findConsent (runCreateConsent g (some cid) fresh p).1 cid =
          some { c with revoked_at := p.revoked_at }) ∧
    (∀ p th, findThought g (p.thought_id.getD fresh) = some th →
        findThought (runUpsertThought g p fresh).1 (p.thought_id.getD fresh) =
          some { th with kind := p.kind, text := p.text, tokens := p.tokens
                         embed := p.embed, ache := p.ache, drift := p.drift }) ∧
    (∀ p c, findClaim g (p.claim_id.getD fresh) = some c →
        findClaim (runUpsertClaim g p fresh).1 (p.claim_id.getD fresh) =
          some { c with text := some p.text, truthiness := some p.truthiness
                        confidence := some p.confidence }) ∧
    (∀ p r, findRitual g (p.ritual_id.getD fresh) = some r →
        findRitual (runUpsertRitual g p fresh).1 (p.ritual_id.getD fresh) =
          some { r with name := p.name, code := p.code, version := p.version
                        effect := p.effect, checksum := p.checksum, meta := p.meta.getD [] }) ∧
    (∀ p l, findLaw g (p.law_id.getD fresh) = some l →
        findLaw (runUpsertLaw g p fresh).1 (p.law_id.getD fresh) =
          some { l with name := p.name, version := p.version, text := p.text
                        checksum := p.checksum, active := p.active }) ∧
    (∀ p e, findEvent g (p.event_id.getD fresh) = some e →
        findEvent (runCreateEvent g p fresh).1 (p.event_id.getD fresh) =
          some { e with name := p.name, whenTs := p.whenTs, meta := p.meta }) ∧
    (∀ p v st, findIdentity g p.node_id = some v →
        findState g (p.state_id.getD fresh) = some st →
        findState (runUpsertState g p fresh).1 (p.state_id.getD fresh) =
          some { st with t := p.t, sigma := p.sigma, s := p.s, tau := p.tau
                         chi := p.chi, lambda_ := p.lambda_, rho := p.rho
                         embed := p.embed, tags := p.tags }) :=
  ⟨fun p i h => runUpsertIdentity_on_match g p i h,
   fun cid p c h => runCreateConsent_on_match g cid fresh p c h,
   fun p th h => runUpsertThought_on_match g p fresh th h,
   fun p c h => runUpsertClaim_on_match g p fresh c h,
   fun p r h => runUpsertRitual_on_match g p fresh r h,
   fun p l h => runUpsertLaw_on_match g p fresh l h,
   fun p e h => runCreateEvent_on_match g p fresh e h,
   fun p v st hid h => runUpsertState_on_match g p fresh v st hid h⟩

/-- Witness for the amended C4 on a store holding one node of each kind. -/
theorem upsert_on_match_field_semantics_witness :
    ((runUpsertIdentity wgFull wIdentityUpd).2 = some wgFullIdentity ∧
     (runUpsertIdentity wgFull wIdentityUpd).1.identities = wgFull.identities) ∧
    findConsent (runCreateConsent wgFull (some "c1") "f" wConsentUpd).1 "c1" =
      some { wgFullConsent with revoked_at := some 9 } ∧
    findThought (runUpsertThought wgFull wThoughtUpd "f").1 "t1" =
      some { wgFullThought with kind := "note", text := "new", tokens := some 9
                                embed := [2], ache := 1, drift := 2 } ∧
    findClaim (runUpsertClaim wgFull wClaimUpd "f").1 "c1" =
      some { wClaimC1 with text := some "nt", truthiness := some 2, confidence := some 3 } ∧
    findRitual (runUpsertRitual wgFull wRitualUpd "f").1 "r1" =
      some { wgFullRitual with name := "n2", code := "c2", version := "v2"
                               effect := some "e", checksum := "h2", meta := [] } ∧
    findLaw (runUpsertLaw wgFull wLawUpd "f").1 "l1" =
      some { wgFullLaw with name := "n2", version := "v2", text := "t2"
                            checksum := "h2", active := false } ∧
    findEvent (runCreateEvent wgFull wEventUpd "f").1 "e1" =
      some { wgFullEvent with name := "n2", whenTs := 7, meta := [("x", "y")] } ∧
    findState (runUpsertState wgFull wStateUpd "f").1 "s1" =
      some { wStateT "s1" 1 with t := 9, sigma := 1, s := 1, tau := 1, chi := 1
                                 lambda_ := 1, rho := 1, embed := [9], tags := ["z"] } :=
  ⟨(upsert_on_match_field_semantics wgFull "f").1 wIdentityUpd wgFullIdentity rfl,
   (upsert_on_match_field_semantics wgFull "f").2.1 "c1" wConsentUpd wgFullConsent rfl,
   (upsert_on_match_field_semantics wgFull "f").2.2.1 wThoughtUpd wgFullThought rfl,
   (upsert_on_match_field_semantics wgFull "f").2.2.2.1 wClaimUpd wClaimC1 rfl,
   (upsert_on_match_field_semantics wgFull "f").2.2.2.2.1 wRitualUpd wgFullRitual rfl,
   (upsert_on_match_field_semantics wgFull "f").2.2.2.2.2.1 wLawUpd wgFullLaw rfl,
   (upsert_on_match_field_semantics wgFull "f").2.2.2.2.2.2.1 wEventUpd wgFullEvent rfl,
   (upsert_on_match_field_semantics wgFull "f").2.2.2.2.2.2.2 wStateUpd wgFullIdentity
     (wStateT "s1" 1) rfl rfl⟩

theorem mem_matchedRefs (f : String → List NodeRef) (ids : List String) (r : NodeRef) :
    r ∈ matchedRefs f ids ↔ ∃ i ∈ ids, r ∈ f i := by
  induction ids with
  | nil => simp [matchedRefs]
  | cons x xs ih =>
    show r ∈ f x ++ matchedRefs f xs ↔ _
    rw [List.mem_append, ih]
    simp

theorem evidenceMatches_refId (g : Graph) (ev : String) (r : NodeRef)
    (h : r ∈ evidenceMatches g ev) : r.refId = ev := by
  unfold evidenceMatches at h
  rcases List.mem_append.mp h with h123 | h4
  · rcases List.mem_append.mp h123 with h12 | h3
    · rcases List.mem_append.mp h12 with h1 | h2
      · rcases List.mem_map.mp h1 with ⟨c, hc, rfl⟩
        exact of_decide_eq_true (List.mem_filter.mp hc).2
      · rcases List.mem_map.mp h2 with ⟨t, ht, rfl⟩
        exact of_decide_eq_true (List.mem_filter.mp ht).2
    · rcases List.mem_map.mp h3 with ⟨i, hi, rfl⟩
      exact of_decide_eq_true (List.mem_filter.mp hi).2
  · rcases List.mem_map.mp h4 with ⟨i, hi, rfl⟩
    exact of_decide_eq_true (List.mem_filter.mp hi).2

theorem supportMatches_refId (g : Graph) (sid : String) (r : NodeRef)
    (h : r ∈ supportMatches g sid) : r.refId = sid := by
  unfold supportMatches at h
  rcases List.mem_append.mp h with h123 | h4
  · rcases List.mem_append.mp h123 with h12 | h3
    · rcases List.mem_append.mp h12 with h1 | h2
      · rcases List.mem_map.mp h1 with ⟨i, hi, rfl⟩
        exact of_decide_eq_true (List.mem_filter.mp hi).2
      · rcases List.mem_map.mp h2 with ⟨i, hi, rfl⟩
        exact of_decide_eq_true (List.mem_filter.mp hi).2
    · rcases List.mem_map.mp h3 with ⟨i, hi, rfl⟩
      exact of_decide_eq_true (List.mem_filter.mp hi).2
  · rcases List.mem_map.mp h4 with ⟨t, ht, rfl⟩
    exact of_decide_eq_true (List.mem_filter.mp ht).2

theorem appliesMatches_refId (g : Graph) (aid : String) (r : NodeRef)
    (h : r ∈ appliesMatches g aid) : r.refId = aid := by
  unfold appliesMatches at h
  rcases List.mem_append.mp h with h12 | h3
  · rcases List.mem_append.mp h12 with h1 | h2
    · rcases List.mem_map.mp h1 with ⟨i, hi, rfl⟩
      exact of_decide_eq_true (List.mem_filter.mp hi).2
    · rcases List.mem_map.mp h2 with ⟨i, hi, rfl⟩
      exact of_decide_eq_true (List.mem_filter.mp hi).2
  · rcases List.mem_map.mp h3 with ⟨l, hl, rfl⟩
    exact of_decide_eq_true (List.mem_filter.mp hl).2

theorem updatedMatches_refId (g : Graph) (uid : String) (r : NodeRef)
    (h : r ∈ updatedMatches g uid) : r.refId = uid := by
  unfold updatedMatches at h
  rcases List.mem_append.mp h with h123 | h4
  · rcases List.mem_append.mp h123 with h12 | h3
    · rcases List.mem_append.mp h12 with h1 | h2
      · rcases List.mem_map.mp h1 with ⟨s, hs, rfl⟩
        exact of_decide_eq_true (List.mem_filter.mp hs).2
      · rcases List.mem_map.mp h2 with ⟨l, hl, rfl⟩
        exact of_decide_eq_true (List.mem_filter.mp hl).2
    · rcases List.mem_map.mp h3 with ⟨x, hx, rfl⟩
      exact of_decide_eq_true (List.mem_filter.mp hx).2
  · rcases List.mem_map.mp h4 with ⟨c, hc, fl⟩
    subst fl
    exact of_decide_eq_true (List.mem_filter.mp hc).2

theorem mergeClaimStubs_cons (cs : List ClaimNode) (x : String) (xs : List String) :
    mergeClaimStubs cs (x :: xs) =
      mergeClaimStubs
        (if (lookupBy ClaimNode.claim_id x cs).isSome then cs
         else cs ++ [{ claim_id := x, text := none, truthiness := none
                       confidence := none, created_at := none }]) xs := rfl

theorem mergeClaimStubs_mem_mono (ids : List String) (cs : List ClaimNode) (c : ClaimNode)
    (h : c ∈ cs) : c ∈ mergeClaimStubs cs ids := by
  induction ids generalizing cs with
  | nil => exact h
  | cons x xs ih =>
    rw [mergeClaimStubs_cons]
    apply ih
    split
    · exact h
    · exact List.mem_append_left _ h

theorem mergeClaimStubs_exists (ids : List String) (cs : List ClaimNode) (cid : String)
    (h : cid ∈ ids) : ∃ c ∈ mergeClaimStubs cs ids, c.claim_id = cid := by
  induction ids generalizing cs with
  | nil => exact absurd h (by simp)
  | cons x xs ih =>
    rw [mergeClaimStubs_cons]
    rcases List.mem_cons.mp h with hx | hxs
    · subst hx
      by_cases hsome : (lookupBy ClaimNode.claim_id cid cs).isSome
      · rw [if_pos hsome]
        rcases Option.isSome_iff_exists.mp hsome with ⟨c, hc⟩
        rcases lookupBy_some_mem _ _ _ _ hc with ⟨hm, hk⟩
        exact ⟨c, mergeClaimStubs_mem_mono xs cs c hm, hk⟩
      · rw [if_neg hsome]
        exact ⟨{ claim_id := cid, text := none, truthiness := none
                 confidence := none, created_at := none },
               mergeClaimStubs_mem_mono xs _ _
                 (List.mem_append_right _ (List.mem_singleton.mpr rfl)), rfl⟩
    · exact ih _ hxs

theorem mergeThoughtNode_fields (g : Graph) (p : ThoughtIn) (tid : String) :
    (mergeThoughtNode g p tid).1.glyphs = g.glyphs ∧
    (mergeThoughtNode g p tid).1.usesGlyph = g.usesGlyph ∧
    (mergeThoughtNode g p tid).1.claims = g.claims ∧
    (mergeThoughtNode g p tid).1.mentions = g.mentions := by
  unfold mergeThoughtNode
  cases findThought g tid <;> exact ⟨rfl, rfl, rfl, rfl⟩

theorem runUpsertThought_glyph_proj (g : Graph) (p : ThoughtIn) (fresh : String) :
    (runUpsertThought g p fresh).1.glyphs = mergeList g.glyphs p.glyph_ids ∧
    (runUpsertThought g p fresh).1.usesGlyph =
      mergeList g.usesGlyph (p.glyph_ids.map (fun gid => (p.thought_id.getD fresh, gid))) := by
  unfold runUpsertThought
  simp only []
  split
  · exact ⟨congrArg (fun l => mergeList l p.glyph_ids)
        (mergeThoughtNode_fields g p (p.thought_id.getD fresh)).1,
      congrArg (fun l => mergeList l (p.glyph_ids.map (fun gid => (p.thought_id.getD fresh, gid))))
        (mergeThoughtNode_fields g p (p.thought_id.getD fresh)).2.1⟩
  · split
    · exact ⟨congrArg (fun l => mergeList l p.glyph_ids)
          (mergeThoughtNode_fields g p (p.thought_id.getD fresh)).1,
        congrArg (fun l => mergeList l (p.glyph_ids.map (fun gid => (p.thought_id.getD fresh, gid))))
          (mergeThoughtNode_fields g p (p.thought_id.getD fresh)).2.1⟩
    · exact ⟨((addThoughtSource_fields _ _ _).2.2.1).trans
          (congrArg (fun l => mergeList l p.glyph_ids)
            (mergeThoughtNode_fields g p (p.thought_id.getD fresh)).1),
        ((addThoughtSource_fields _ _ _).2.2.2.1).trans
          (congrArg (fun l => mergeList l (p.glyph_ids.map (fun gid => (p.thought_id.getD fresh, gid))))
            (mergeThoughtNode_fields g p (p.thought_id.getD fresh)).2.1)⟩

theorem runUpsertThought_glyph_wiring (g : Graph) (p : ThoughtIn) (fresh : String) (gid : String)
    (h : gid ∈ p.glyph_ids) :
    gid ∈ (runUpsertThought g p fresh).1.glyphs ∧
    (p.thought_id.getD fresh, gid) ∈ (runUpsertThought g p fresh).1.usesGlyph := by
  rw [(runUpsertThought_glyph_proj g p fresh).1, (runUpsertThought_glyph_proj g p fresh).2]
  constructor
  · exact (mem_mergeList _ _ _).mpr (Or.inr h)
  · exact (mem_mergeList _ _ _).mpr (Or.inr (List.mem_map.mpr ⟨gid, h, rfl⟩))

theorem runUpsertThought_mention_proj (g : Graph) (p : ThoughtIn) (fresh : String)
    (hg : p.glyph_ids.isEmpty = false) :
    (runUpsertThought g p fresh).1.claims = mergeClaimStubs g.claims p.mentions_claim_ids ∧
    (runUpsertThought g p fresh).1.mentions =
      mergeList g.mentions (p.mentions_claim_ids.map (fun cid => (p.thought_id.getD fresh, cid))) := by
  unfold runUpsertThought
  simp only [hg, Bool.false_eq_true, if_false]
  split
  · exact ⟨congrArg (fun l => mergeClaimStubs l p.mentions_claim_ids)
        (mergeThoughtNode_fields g p (p.thought_id.getD fresh)).2.2.1,
      congrArg (fun l => mergeList l (p.mentions_claim_ids.map (fun cid => (p.thought_id.getD fresh, cid))))
        (mergeThoughtNode_fields g p (p.thought_id.getD fresh)).2.2.2⟩
  · exact ⟨((addThoughtSource_fields _ _ _).2.1).trans
        (congrArg (fun l => mergeClaimStubs l p.mentions_claim_ids)
          (mergeThoughtNode_fields g p (p.thought_id.getD fresh)).2.2.1),
      ((addThoughtSource_fields _ _ _).2.2.2.2).trans
        (congrArg (fun l => mergeList l (p.mentions_claim_ids.map (fun cid => (p.thought_id.getD fresh, cid))))
          (mergeThoughtNode_fields g p (p.thought_id.getD fresh)).2.2.2)⟩

theorem runUpsertThought_mention_wiring (g : Graph) (p : ThoughtIn) (fresh : String)
    (cid : String) (h : cid ∈ p.mentions_claim_ids) (hg : p.glyph_ids ≠ []) :
    (∃ c ∈ (runUpsertThought g p fresh).1.claims, c.claim_id = cid) ∧
    (p.thought_id.getD fresh, cid) ∈ (runUpsertThought g p fresh).1.mentions := by
  have hgi : p.glyph_ids.isEmpty = false := by
    rw [List.isEmpty_eq_false_iff_exists_mem]
    exact List.exists_mem_of_ne_nil _ hg
  rw [(runUpsertThought_mention_proj g p fresh hgi).1,
      (runUpsertThought_mention_proj g p fresh hgi).2]
  constructor
  · exact mergeClaimStubs_exists _ _ _ h
  · exact (mem_mergeList _ _ _).mpr (Or.inr (List.mem_map.mpr ⟨cid, h, rfl⟩))

theorem evidenceMatches_congr (g1 g2 : Graph) (h1 : g1.claims = g2.claims)
    (h2 : g1.thoughts = g2.thoughts) (h3 : g1.tests = g2.tests)
    (h4 : g1.artifacts = g2.artifacts) :
    evidenceMatches g1 = evidenceMatches g2 := by
  funext ev
  unfold evidenceMatches
  rw [h1, h2, h3, h4]

theorem supportMatches_congr (g1 g2 : Graph) (h1 : g1.sources = g2.sources)
    (h2 : g1.tests = g2.tests) (h3 : g1.artifacts = g2.artifacts)
    (h4 : g1.thoughts = g2.thoughts) :
    supportMatches g1 = supportMatches g2 := by
  funext i
  unfold supportMatches
  rw [h1, h2, h3, h4]

theorem appliesMatches_congr (g1 g2 : Graph) (h1 : g1.phases = g2.phases)
    (h2 : g1.identities = g2.identities) (h3 : g1.laws = g2.laws) :
    appliesMatches g1 = appliesMatches g2 := by
  funext i
  unfold appliesMatches
  rw [h1, h2, h3]

theorem updatedMatches_congr (g1 g2 : Graph) (h1 : g1.states = g2.states)
    (h2 : g1.laws = g2.laws) (h3 : g1.rituals = g2.rituals)
    (h4 : g1.claims = g2.claims) :
    updatedMatches g1 = updatedMatches g2 := by
  funext i
  unfold updatedMatches
  rw [h1, h2, h3, h4]

theorem mergeStateNode_fields (g : Graph) (p : StateParams) (sid : String) :
    (mergeStateNode g p sid).1.claims = g.claims ∧
    (mergeStateNode g p sid).1.thoughts = g.thoughts ∧
    (mergeStateNode g p sid).1.tests = g.tests ∧
    (mergeStateNode g p sid).1.artifacts = g.artifacts ∧
    (mergeStateNode g p sid).1.evidencedBy = g.evidencedBy := by
  unfold mergeStateNode
  cases findState g sid <;> exact ⟨rfl, rfl, rfl, rfl, rfl⟩

theorem stateStages_fields (g : Graph) (p : StateParams) (sid : String) :
    (addDerived (addInPhase (addHasState (mergeStateNode g p sid).1 p.node_id sid g.clock)
        sid p.phase_id) sid p.derived_from_state_id).claims = g.claims ∧
    (addDerived (addInPhase (addHasState (mergeStateNode g p sid).1 p.node_id sid g.clock)
        sid p.phase_id) sid p.derived_from_state_id).thoughts = g.thoughts ∧
    (addDerived (addInPhase (addHasState (mergeStateNode g p sid).1 p.node_id sid g.clock)
        sid p.phase_id) sid p.derived_from_state_id).tests = g.tests ∧
    (addDerived (addInPhase (addHasState (mergeStateNode g p sid).1 p.node_id sid g.clock)
        sid p.phase_id) sid p.derived_from_state_id).artifacts = g.artifacts ∧
    (addDerived (addInPhase (addHasState (mergeStateNode g p sid).1 p.node_id sid g.clock)
        sid p.phase_id) sid p.derived_from_state_id).evidencedBy = g.evidencedBy := by
  refine ⟨?_, ?_, ?_, ?_, ?_⟩
  · exact ((addDerived_fields _ _ _).2.1).trans
      (((addInPhase_fields _ _ _).2.2.1).trans (mergeStateNode_fields g p sid).1)
  · exact ((addDerived_fields _ _ _).2.2.1).trans
      (((addInPhase_fields _ _ _).2.2.2.1).trans (mergeStateNode_fields g p sid).2.1)
  · exact ((addDerived_fields _ _ _).2.2.2.1).trans
      (((addInPhase_fields _ _ _).2.2.2.2.1).trans (mergeStateNode_fields g p sid).2.2.1)
  · exact ((addDerived_fields _ _ _).2.2.2.2.1).trans
      (((addInPhase_fields _ _ _).2.2.2.2.2.1).trans (mergeStateNode_fields g p sid).2.2.2.1)
  · exact ((addDerived_fields _ _ _).2.2.2.2.2).trans
      (((addInPhase_fields _ _ _).2.2.2.2.2.2.1).trans (mergeStateNode_fields g p sid).2.2.2.2)

theorem runUpsertState_claims (g : Graph) (p : StateParams) (fresh : String) :
    (runUpsertState g p fresh).1.claims = g.claims := by
  unfold runUpsertState
  cases hid : findIdentity g p.node_id <;> simp only [hid]
  split
  · split <;> exact (stateStages_fields g p (p.state_id.getD fresh)).1
  · exact (stateStages_fields g p (p.state_id.getD fresh)).1

theorem runUpsertState_thoughts (g : Graph) (p : StateParams) (fresh : String) :
    (runUpsertState g p fresh).1.thoughts = g.thoughts := by
  unfold runUpsertState
  cases hid : findIdentity g p.node_id <;> simp only [hid]
  split
  · split <;> exact (stateStages_fields g p (p.state_id.getD fresh)).2.1
  · exact (stateStages_fields g p (p.state_id.getD fresh)).2.1

theorem runUpsertState_tests (g : Graph) (p : StateParams) (fresh : String) :
    (runUpsertState g p fresh).1.tests = g.tests := by
  unfold runUpsertState
  cases hid : findIdentity g p.node_id <;> simp only [hid]
  split
  · split <;> exact (stateStages_fields g p (p.state_id.getD fresh)).2.2.1
  · exact (stateStages_fields g p (p.state_id.getD fresh)).2.2.1

theorem runUpsertState_artifacts (g : Graph) (p : StateParams) (fresh : String) :
    (runUpsertState g p fresh).1.artifacts = g.artifacts := by
  unfold runUpsertState
  cases hid : findIdentity g p.node_id <;> simp only [hid]
  split
  · split <;> exact (stateStages_fields g p (p.state_id.getD fresh)).2.2.2.1
  · exact (stateStages_fields g p (p.state_id.getD fresh)).2.2.2.1

theorem addEvidence_eq_of_fields (g0 g : Graph) (sid : String) (evidence : List String)
    (h1 : g0.claims = g.claims) (h2 : g0.thoughts = g.thoughts) (h3 : g0.tests = g.tests)
    (h4 : g0.artifacts = g.artifacts) (h5 : g0.evidencedBy = g.evidencedBy) :
    (addEvidence g0 sid evidence).evidencedBy =
      mergeList g.evidencedBy
        ((matchedRefs (evidenceMatches g) evidence).map (fun r => (sid, r))) := by
  show mergeList g0.evidencedBy
      ((matchedRefs (evidenceMatches g0) evidence).map (fun r => (sid, r))) = _
  rw [h5, evidenceMatches_congr g0 g h1 h2 h3 h4]

theorem runUpsertState_evidencedBy_proj (g : Graph) (p : StateParams) (fresh : String)
    (v : IdentityNode) (hid : findIdentity g p.node_id = some v) :
    (runUpsertState g p fresh).1.evidencedBy =
      mergeList g.evidencedBy
        ((matchedRefs (evidenceMatches g) p.evidence).map
          (fun r => (p.state_id.getD fresh, r))) := by
  unfold runUpsertState
  simp only [hid]
  split
  · split <;>
      exact addEvidence_eq_of_fields _ g (p.state_id.getD fresh) p.evidence
        (stateStages_fields g p (p.state_id.getD fresh)).1
        (stateStages_fields g p (p.state_id.getD fresh)).2.1
        (stateStages_fields g p (p.state_id.getD fresh)).2.2.1
        (stateStages_fields g p (p.state_id.getD fresh)).2.2.2.1
        (stateStages_fields g p (p.state_id.getD fresh)).2.2.2.2
  · exact addEvidence_eq_of_fields _ g (p.state_id.getD fresh) p.evidence
      (stateStages_fields g p (p.state_id.getD fresh)).1
      (stateStages_fields g p (p.state_id.getD fresh)).2.1
      (stateStages_fields g p (p.state_id.getD fresh)).2.2.1
      (stateStages_fields g p (p.state_id.getD fresh)).2.2.2.1
      (stateStages_fields g p (p.state_id.getD fresh)).2.2.2.2

theorem runUpsertState_evidence_edges (g : Graph) (p : StateParams) (fresh : String) :
    ∀ e ∈ (runUpsertState g p fresh).1.evidencedBy,
      e ∈ g.evidencedBy ∨ ∃ ev ∈ p.evidence, e.2 ∈ evidenceMatches g ev := by
  cases hid : findIdentity g p.node_id with
  | none =>
    unfold runUpsertState
    simp only [hid]
    intro e he
    exact Or.inl he
  | some v =>
    rw [runUpsertState_evidencedBy_proj g p fresh v hid]
    intro e he
    rcases (mem_mergeList _ _ _).mp he with h2 | h2
    · exact Or.inl h2
    · rcases List.mem_map.mp h2 with ⟨r, hr, rfl⟩
      rcases (mem_matchedRefs _ _ _).mp hr with ⟨ev, hev, hm⟩
      exact Or.inr ⟨ev, hev, hm⟩

theorem mergeClaimNode_fields (g : Graph) (p : ClaimIn) (cid : String) :
    (mergeClaimNode g p cid).1.sources = g.sources ∧
    (mergeClaimNode g p cid).1.tests = g.tests ∧
    (mergeClaimNode g p cid).1.artifacts = g.artifacts ∧
    (mergeClaimNode g p cid).1.thoughts = g.thoughts ∧
    (mergeClaimNode g p cid).1.supportedBy = g.supportedBy := by
  unfold mergeClaimNode
  cases findClaim g cid <;> exact ⟨rfl, rfl, rfl, rfl, rfl⟩

theorem runUpsertClaim_sources (g : Graph) (p : ClaimIn) (fresh : String) :
    (runUpsertClaim g p fresh).1.sources = g.sources := by
  unfold runUpsertClaim
  simp only []
  split
  · split <;> exact (mergeClaimNode_fields g p (p.claim_id.getD fresh)).1
  · exact (mergeClaimNode_fields g p (p.claim_id.getD fresh)).1

theorem runUpsertClaim_tests (g : Graph) (p : ClaimIn) (fresh : String) :
    (runUpsertClaim g p fresh).1.tests = g.tests := by
  unfold runUpsertClaim
  simp only []
  split
  · split <;> exact (mergeClaimNode_fields g p (p.claim_id.getD fresh)).2.1
  · exact (mergeClaimNode_fields g p (p.claim_id.getD fresh)).2.1

theorem runUpsertClaim_artifacts (g : Graph) (p : ClaimIn) (fresh : String) :
    (runUpsertClaim g p fresh).1.artifacts = g.artifacts := by
  unfold runUpsertClaim
  simp only []
  split
  · split <;> exact (mergeClaimNode_fields g p (p.claim_id.getD fresh)).2.2.1
  · exact (mergeClaimNode_fields g p (p.claim_id.getD fresh)).2.2.1

theorem runUpsertClaim_thoughts (g : Graph) (p : ClaimIn) (fresh : String) :
    (runUpsertClaim g p fresh).1.thoughts = g.thoughts := by
  unfold runUpsertClaim
  simp only []
  split
  · split <;> exact (mergeClaimNode_fields g p (p.claim_id.getD fresh)).2.2.2.1
  · exact (mergeClaimNode_fields g p (p.claim_id.getD fresh)).2.2.2.1

theorem addSupports_eq_of_fields (g0 g : Graph) (cid : String) (ids : List String)
    (h1 : g0.sources = g.sources) (h2 : g0.tests = g.tests) (h3 : g0.artifacts = g.artifacts)
    (h4 : g0.thoughts = g.thoughts) (h5 : g0.supportedBy = g.supportedBy) :
    (addSupports g0 cid ids).supportedBy =
      mergeList g.supportedBy
        ((matchedRefs (supportMatches g) ids).map (fun r => (cid, r))) := by
  show mergeList g0.supportedBy
      ((matchedRefs (supportMatches g0) ids).map (fun r => (cid, r))) = _
  rw [h5, supportMatches_congr g0 g h1 h2 h3 h4]

theorem runUpsertClaim_supportedBy_proj (g : Graph) (p : ClaimIn) (fresh : String) :
    (runUpsertClaim g p fresh).1.supportedBy =
      mergeList g.supportedBy
        ((matchedRefs (supportMatches g) p.support_ids).map
          (fun r => (p.claim_id.getD fresh, r))) := by
  unfold runUpsertClaim
  simp only []
  split
  · split <;>
      exact addSupports_eq_of_fields _ g (p.claim_id.getD fresh) p.support_ids
        (mergeClaimNode_fields g p (p.claim_id.getD fresh)).1
        (mergeClaimNode_fields g p (p.claim_id.getD fresh)).2.1
        (mergeClaimNode_fields g p (p.claim_id.getD fresh)).2.2.1
        (mergeClaimNode_fields g p (p.claim_id.getD fresh)).2.2.2.1
        (mergeClaimNode_fields g p (p.claim_id.getD fresh)).2.2.2.2
  · exact addSupports_eq_of_fields _ g (p.claim_id.getD fresh) p.support_ids
      (mergeClaimNode_fields g p (p.claim_id.getD fresh)).1
      (mergeClaimNode_fields g p (p.claim_id.getD fresh)).2.1
      (mergeClaimNode_fields g p (p.claim_id.getD fresh)).2.2.1
      (mergeClaimNode_fields g p (p.claim_id.getD fresh)).2.2.2.1
      (mergeClaimNode_fields g p (p.claim_id.getD fresh)).2.2.2.2

theorem runUpsertClaim_support_edges (g : Graph) (p : ClaimIn) (fresh : String) :
    ∀ e ∈ (runUpsertClaim g p fresh).1.supportedBy,
      e ∈ g.supportedBy ∨ ∃ i ∈ p.support_ids, e.2 ∈ supportMatches g i := by
  rw [runUpsertClaim_supportedBy_proj g p fresh]
  intro e he
  rcases (mem_mergeList _ _ _).mp he with h2 | h2
  · exact Or.inl h2
  · rcases List.mem_map.mp h2 with ⟨r, hr, rfl⟩
    rcases (mem_matchedRefs _ _ _).mp hr with ⟨i, hi, hm⟩
    exact Or.inr ⟨i, hi, hm⟩

theorem mergeRitualNode_fields (g : Graph) (p : RitualParams) (rid : String) :
    (mergeRitualNode g p rid).1.phases = g.phases ∧
    (mergeRitualNode g p rid).1.identities = g.identities ∧
    (mergeRitualNode g p rid).1.laws = g.laws ∧
    (mergeRitualNode g p rid).1.appliesTo = g.appliesTo := by
  unfold mergeRitualNode
  cases findRitual g rid <;> exact ⟨rfl, rfl, rfl, rfl⟩

theorem runUpsertRitual_phases (g : Graph) (p : RitualParams) (fresh : String) :
    (runUpsertRitual g p fresh).1.phases = g.phases := by
  unfold runUpsertRitual
  simp only []
  split <;> exact (mergeRitualNode_fields g p (p.ritual_id.getD fresh)).1

theorem runUpsertRitual_identities (g : Graph) (p : RitualParams) (fresh : String) :
    (runUpsertRitual g p fresh).1.identities = g.identities := by
  unfold runUpsertRitual
  simp only []
  split <;> exact (mergeRitualNode_fields g p (p.ritual_id.getD fresh)).2.1

theorem runUpsertRitual_laws (g : Graph) (p : RitualParams) (fresh : String) :
    (runUpsertRitual g p fresh).1.laws = g.laws := by
  unfold runUpsertRitual
  simp only []
  split <;> exact (mergeRitualNode_fields g p (p.ritual_id.getD fresh)).2.2.1

theorem addApplies_eq_of_fields (g0 g : Graph) (rid : String) (ids : List String)
    (h1 : g0.phases = g.phases) (h2 : g0.identities = g.identities) (h3 : g0.laws = g.laws)
    (h4 : g0.appliesTo = g.appliesTo) :
    (addApplies g0 rid ids).appliesTo =
      mergeList g.appliesTo
        ((matchedRefs (appliesMatches g) ids).map (fun x => (rid, x))) := by
  show mergeList g0.appliesTo
      ((matchedRefs (appliesMatches g0) ids).map (fun x => (rid, x))) = _
  rw [h4, appliesMatches_congr g0 g h1 h2 h3]

theorem runUpsertRitual_appliesTo_proj (g : Graph) (p : RitualParams) (fresh : String) :
    (runUpsertRitual g p fresh).1.appliesTo =
      mergeList g.appliesTo
        ((matchedRefs (appliesMatches g) p.applies_to).map
          (fun x => (p.ritual_id.getD fresh, x))) := by
  unfold runUpsertRitual
  simp only []
  split <;>
    exact addApplies_eq_of_fields _ g (p.ritual_id.getD fresh) p.applies_to
      (mergeRitualNode_fields g p (p.ritual_id.getD fresh)).1
      (mergeRitualNode_fields g p (p.ritual_id.getD fresh)).2.1
      (mergeRitualNode_fields g p (p.ritual_id.getD fresh)).2.2.1
      (mergeRitualNode_fields g p (p.ritual_id.getD fresh)).2.2.2

theorem runUpsertRitual_applies_edges (g : Graph) (p : RitualParams) (fresh : String) :
    ∀ e ∈ (runUpsertRitual g p fresh).1.appliesTo,
      e ∈ g.appliesTo ∨ ∃ i ∈ p.applies_to, e.2 ∈ appliesMatches g i := by
  rw [runUpsertRitual_appliesTo_proj g p fresh]
  intro e he
  rcases (mem_mergeList _ _ _).mp he with h2 | h2
  · exact Or.inl h2
  · rcases List.mem_map.mp h2 with ⟨r, hr, rfl⟩
    rcases (mem_matchedRefs _ _ _).mp hr with ⟨i, hi, hm⟩
    exact Or.inr ⟨i, hi, hm⟩

theorem mergeEventNode_fields (g : Graph) (p : EventParams) (eid : String) :
    (mergeEventNode g p eid).1.states = g.states ∧
    (mergeEventNode g p eid).1.laws = g.laws ∧
    (mergeEventNode g p eid).1.rituals = g.rituals ∧
    (mergeEventNode g p eid).1.claims = g.claims ∧
    (mergeEventNode g p eid).1.updated = g.updated := by
  unfold mergeEventNode
  cases findEvent g eid <;> exact ⟨rfl, rfl, rfl, rfl, rfl⟩

theorem runCreateEvent_states (g : Graph) (p : EventParams) (fresh : String) :
    (runCreateEvent g p fresh).1.states = g.states := by
  unfold runCreateEvent
  simp only []
  split <;> exact (mergeEventNode_fields g p (p.event_id.getD fresh)).1

theorem runCreateEvent_laws (g : Graph) (p : EventParams) (fresh : String) :
    (runCreateEvent g p fresh).1.laws = g.laws := by
  unfold runCreateEvent
  simp only []
  split <;> exact (mergeEventNode_fields g p (p.event_id.getD fresh)).2.1

theorem runCreateEvent_rituals (g : Graph) (p : EventParams) (fresh : String) :
    (runCreateEvent g p fresh).1.rituals = g.rituals := by
  unfold runCreateEvent
  simp only []
  split <;> exact (mergeEventNode_fields g p (p.event_id.getD fresh)).2.2.1

theorem runCreateEvent_claims (g : Graph) (p : EventParams) (fresh : String) :
    (runCreateEvent g p fresh).1.claims = g.claims := by
  unfold runCreateEvent
  simp only []
  split <;> exact (mergeEventNode_fields g p (p.event_id.getD fresh)).2.2.2.1

theorem addUpdates_eq_of_fields (g0 g : Graph) (eid : String) (ids : List String)
    (h1 : g0.states = g.states) (h2 : g0.laws = g.laws) (h3 : g0.rituals = g.rituals)
    (h4 : g0.claims = g.claims) (h5 : g0.updated = g.updated) :
    (addUpdates g0 eid ids).updated =
      mergeList g.updated
        ((matchedRefs (updatedMatches g) ids).map (fun x => (eid, x))) := by
  show mergeList g0.updated
      ((matchedRefs (updatedMatches g0) ids).map (fun x => (eid, x))) = _
  rw [h5, updatedMatches_congr g0 g h1 h2 h3 h4]

theorem runCreateEvent_updated_proj (g : Graph) (p : EventParams) (fresh : String) :
    (runCreateEvent g p fresh).1.updated =
      mergeList g.updated
        ((matchedRefs (updatedMatches g) p.updates).map
          (fun x => (p.event_id.getD fresh, x))) := by
  unfold runCreateEvent
  simp only []
  split <;>
    exact addUpdates_eq_of_fields _ g (p.event_id.getD fresh) p.updates
      (mergeEventNode_fields g p (p.event_id.getD fresh)).1
      (mergeEventNode_fields g p (p.event_id.getD fresh)).2.1
      (mergeEventNode_fields g p (p.event_id.getD fresh)).2.2.1
      (mergeEventNode_fields g p (p.event_id.getD fresh)).2.2.2.1
      (mergeEventNode_fields g p (p.event_id.getD fresh)).2.2.2.2

theorem runCreateEvent_updated_edges (g : Graph) (p : EventParams) (fresh : String) :
    ∀ e ∈ (runCreateEvent g p fresh).1.updated,
      e ∈ g.updated ∨ ∃ i ∈ p.updates, e.2 ∈ updatedMatches g i := by
  rw [runCreateEvent_updated_proj g p fresh]
  intro e he
  rcases (mem_mergeList _ _ _).mp he with h2 | h2
  · exact Or.inl h2
  · rcases List.mem_map.mp h2 with ⟨r, hr, rfl⟩
    rcases (mem_matchedRefs _ _ _).mp hr with ⟨i, hi, hm⟩
    exact Or.inr ⟨i, hi, hm⟩

/-- Counterexample for claim C5: on a store with identity a and public
consent, a state upsert whose evidence names the never-seen id ghost creates
no stub node of any evidence label and merges no edge — and a thought whose
glyph list is empty does not even materialize its mentioned claim m (the empty
glyph UNWIND leaves no rows).  So referenced ids are not always auto-created
as stubs with edges. -/
theorem unresolved_reference_creates_no_stub :
    upsert_state wg2 wGhostReq "s3" = .ok (c5After, none) ∧
    c5After.claims = [] ∧ c5After.thoughts = [] ∧ c5After.tests = [] ∧
    c5After.artifacts = [] ∧ c5After.evidencedBy = [] ∧
    (upsert_thought Graph.empty wThoughtMention "tf").1.claims = [] :=
  ⟨rfl, rfl, rfl, rfl, rfl, rfl, rfl⟩

/-- Claim C5 (amended): glyph references are always auto-created as stub
nodes with the USES_GLYPH edge merged, and mentioned-claim references
likewise whenever the glyph UNWIND left at least one row; evidence, support,
applicability and update references are resolved by plain MATCH — an id that
matches no node creates no stub of the candidate labels and merges no edge to
that id, silently and without error. -/
theorem reference_resolution_semantics (g : Graph) (fresh : String) :
    (∀ p gid, gid ∈ p.glyph_ids →
        gid ∈ (runUpsertThought g p fresh).1.glyphs ∧
        (p.thought_id.getD fresh, gid) ∈ (runUpsertThought g p fresh).1.usesGlyph) ∧
    (∀ p cid, cid ∈ p.mentions_claim_ids → p.glyph_ids ≠ [] →
        (∃ c ∈ (runUpsertThought g p fresh).1.claims, c.claim_id = cid) ∧
        (p.thought_id.getD fresh, cid) ∈ (runUpsertThought g p fresh).1.mentions) ∧
    (∀ p ev, evidenceMatches g ev = [] →
        (runUpsertState g p fresh).1.claims = g.claims ∧
        (runUpsertState g p fresh).1.thoughts = g.thoughts ∧
        (runUpsertState g p fresh).1.tests = g.tests ∧
        (runUpsertState g p fresh).1.artifacts = g.artifacts ∧
        ∀ e ∈ (runUpsertState g p fresh).1.evidencedBy,
          e ∈ g.evidencedBy ∨ e.2.refId ≠ ev) ∧
    (∀ p i, supportMatches g i = [] →
        (runUpsertClaim g p fresh).1.sources = g.sources ∧
        (runUpsertClaim g p fresh).1.tests = g.tests ∧
        (runUpsertClaim g p fresh).1.artifacts = g.artifacts ∧
        (runUpsertClaim g p fresh).1.thoughts = g.thoughts ∧
        ∀ e ∈ (runUpsertClaim g p fresh).1.supportedBy,
          e ∈ g.supportedBy ∨ e.2.refId ≠ i) ∧
    (∀ p i, appliesMatches g i = [] →
        (runUpsertRitual g p fresh).1.phases = g.phases ∧
        (runUpsertRitual g p fresh).1.identities = g.identities ∧
        (runUpsertRitual g p fresh).1.laws = g.laws ∧
        ∀ e ∈ (runUpsertRitual g p fresh).1.appliesTo,
          e ∈ g.appliesTo ∨ e.2.refId ≠ i) ∧
    (∀ p i, updatedMatches g i = [] →
        (runCreateEvent g p fresh).1.states = g.states ∧
        (runCreateEvent g p fresh).1.laws = g.laws ∧
        (runCreateEvent g p fresh).1.rituals = g.rituals ∧
        (runCreateEvent g p fresh).1.claims = g.claims ∧
        ∀ e ∈ (runCreateEvent g p fresh).1.updated,
          e ∈ g.updated ∨ e.2.refId ≠ i) := by
  refine ⟨?_, ?_, ?_, ?_, ?_, ?_⟩
  · exact fun p gid h => runUpsertThought_glyph_wiring g p fresh gid h
  · exact fun p cid h hg => runUpsertThought_mention_wiring g p fresh cid h hg
  · intro p ev hem
    refine ⟨runUpsertState_claims g p fresh, runUpsertState_thoughts g p fresh,
      runUpsertState_tests g p fresh, runUpsertState_artifacts g p fresh, ?_⟩
    intro e he
    rcases runUpsertState_evidence_edges g p fresh e he with h2 | ⟨ev2, _, hm⟩
    · exact Or.inl h2
    · right
      intro heq
      have hev2 : ev2 = ev := (evidenceMatches_refId g ev2 _ hm).symm.trans heq
      subst hev2
      rw [hem] at hm
      exact absurd hm (List.not_mem_nil _)
  · intro p i hem
    refine ⟨runUpsertClaim_sources g p fresh, runUpsertClaim_tests g p fresh,
      runUpsertClaim_artifacts g p fresh, runUpsertClaim_thoughts g p fresh, ?_⟩
    intro e he
    rcases runUpsertClaim_support_edges g p fresh e he with h2 | ⟨i2, _, hm⟩
    · exact Or.inl h2
    · right
      intro heq
      have hi2 : i2 = i := (supportMatches_refId g i2 _ hm).symm.trans heq
      subst hi2
      rw [hem] at hm
      exact absurd hm (List.not_mem_nil _)
  · intro p i hem
    refine ⟨runUpsertRitual_phases g p fresh, runUpsertRitual_identities g p fresh,
      runUpsertRitual_laws g p fresh, ?_⟩
    intro e he
    rcases runUpsertRitual_applies_edges g p fresh e he with h2 | ⟨i2, _, hm⟩
    · exact Or.inl h2
    · right
      intro heq
      have hi2 : i2 = i := (appliesMatches_refId g i2 _ hm).symm.trans heq
      subst hi2
      rw [hem] at hm
      exact absurd hm (List.not_mem_nil _)
  · intro p i hem
    refine ⟨runCreateEvent_states g p fresh, runCreateEvent_laws g p fresh,
      runCreateEvent_rituals g p fresh, runCreateEvent_claims g p fresh, ?_⟩
    intro e he
    rcases runCreateEvent_updated_edges g p fresh e he with h2 | ⟨i2, _, hm⟩
    · exact Or.inl h2
    · right
      intro heq
      have hi2 : i2 = i := (updatedMatches_refId g i2 _ hm).symm.trans heq
      subst hi2
      rw [hem] at hm
      exact absurd hm (List.not_mem_nil _)

/-- Witness for the amended C5: a glyph and a mention are wired on a concrete
store, and the never-seen id ghost creates no stub and no edge in any of the
four MATCH-resolved stages. -/
theorem reference_resolution_semantics_witness :
    ("g1" ∈ (runUpsertThought wg2 wThoughtFull "tf").1.glyphs ∧
      ("t2", "g1") ∈ (runUpsertThought wg2 wThoughtFull "tf").1.usesGlyph) ∧
    ((∃ c ∈ (runUpsertThought wg2 wThoughtFull "tf").1.claims, c.claim_id = "m1") ∧
      ("t2", "m1") ∈ (runUpsertThought wg2 wThoughtFull "tf").1.mentions) ∧
    ((runUpsertState wg2 wGhostReq.toParams "s3").1.claims = wg2.claims ∧
      (runUpsertState wg2 wGhostReq.toParams "s3").1.thoughts = wg2.thoughts ∧
      (runUpsertState wg2 wGhostReq.toParams "s3").1.tests = wg2.tests ∧
      (runUpsertState wg2 wGhostReq.toParams "s3").1.artifacts = wg2.artifacts ∧
      ∀ e ∈ (runUpsertState wg2 wGhostReq.toParams "s3").1.evidencedBy,
        e ∈ wg2.evidencedBy ∨ e.2.refId ≠ "ghost") ∧
    (∀ e ∈ (runUpsertClaim wg2 wClaimUpd "cf").1.supportedBy,
      e ∈ wg2.supportedBy ∨ e.2.refId ≠ "ghost") ∧
    (∀ e ∈ (runUpsertRitual wg2 wRitualUpd "rf").1.appliesTo,
      e ∈ wg2.appliesTo ∨ e.2.refId ≠ "ghost") ∧
    (∀ e ∈ (runCreateEvent wg2 wEventUpd "ef").1.updated,
      e ∈ wg2.updated ∨ e.2.refId ≠ "ghost") :=
  ⟨(reference_resolution_semantics wg2 "tf").1 wThoughtFull "g1" (by decide),
   (reference_resolution_semantics wg2 "tf").2.1 wThoughtFull "m1" (by decide) (by decide),
   (reference_resolution_semantics wg2 "s3").2.2.1 wGhostReq.toParams "ghost" rfl,
   ((reference_resolution_semantics wg2 "cf").2.2.2.1 wClaimUpd "ghost" rfl).2.2.2.2,
   ((reference_resolution_semantics wg2 "rf").2.2.2.2.1 wRitualUpd "ghost" rfl).2.2.2,
   ((reference_resolution_semantics wg2 "ef").2.2.2.2.2 wEventUpd "ghost" rfl).2.2.2.2⟩

/-- Counterexample for claim C6: a thought upsert whose relationship-id lists
are empty (the schema defaults) returns no materialized entity at all — the
empty UNWIND leaves zero rows, so RETURN yields nothing and the route answers
with a null thought — even though the node itself was written. -/
theorem empty_list_upsert_returns_empty :
    (upsert_thought Graph.empty wThoughtBare "tf").2 = none ∧
    findThought (upsert_thought Graph.empty wThoughtBare "tf").1 "t1" =
      some { thought_id := "t1", kind := "thought", text := "hello", tokens := some 3
             embed := [1], ache := 0, drift := 0, created_at := 0 } :=
  ⟨rfl, rfl⟩

/-- Claim C6 (amended): upsert_identity, create_consent and upsert_law always
return the materialized entity; upsert_thought returns it exactly when
glyph_ids and mentions_claim_ids are both nonempty; upsert_state,
upsert_claim, upsert_ritual and create_event return an empty result whenever
their evidence / support_ids / applies_to / updates list is empty (UNWIND of
an empty list leaves no rows), even though the node write itself persists. -/
theorem upsert_return_semantics (g : Graph) (fresh : String) :
    (∀ p, (runUpsertIdentity g p).2.isSome) ∧
    (∀ p, (runCreateConsent g none fresh p).2.isSome) ∧
    (∀ p, (runUpsertLaw g p fresh).2.isSome) ∧
    (∀ p, ((runUpsertThought g p fresh).2.isSome ↔
        (p.glyph_ids ≠ [] ∧ p.mentions_claim_ids ≠ []))) ∧
    (∀ p, p.evidence = [] → (runUpsertState g p fresh).2 = none) ∧
    (∀ p, p.support_ids = [] → (runUpsertClaim g p fresh).2 = none) ∧
    (∀ p, p.applies_to = [] → (runUpsertRitual g p fresh).2 = none) ∧
    (∀ p, p.updates = [] → (runCreateEvent g p fresh).2 = none) := by
  refine ⟨?_, ?_, ?_, ?_, ?_, ?_, ?_, ?_⟩
  · intro p
    unfold runUpsertIdentity
    cases findIdentity g p.node_id <;> simp
  · intro p
    unfold runCreateConsent
    simp only [Option.getD_none]
    cases hc : findConsent (mergeIdentityBare g p.node_id) fresh <;> simp [hc]
  · intro p
    unfold runUpsertLaw
    simp only []
    cases hl : findLaw g (p.law_id.getD fresh) <;> simp [hl]
  · intro p
    unfold runUpsertThought
    simp only []
    by_cases h1 : p.glyph_ids.isEmpty
    · have h1e : p.glyph_ids = [] := List.isEmpty_iff.mp h1
      simp [h1, h1e]
    · have h1e : p.glyph_ids ≠ [] := by
        intro hc
        rw [hc] at h1
        exact h1 rfl
      by_cases h2 : p.mentions_claim_ids.isEmpty
      · have h2e : p.mentions_claim_ids = [] := List.isEmpty_iff.mp h2
        simp [h1, h2, h2e]
      · have h2e : p.mentions_claim_ids ≠ [] := by
          intro hc
          rw [hc] at h2
          exact h2 rfl
        simp [h1, h2, h1e, h2e]
  · intro p hev
    unfold runUpsertState
    cases hid : findIdentity g p.node_id <;> simp [hid, hev]
  · intro p hsup
    unfold runUpsertClaim
    simp only [hsup]
    simp
  · intro p happ
    unfold runUpsertRitual
    simp only [happ]
    simp
  · intro p hupd
    unfold runCreateEvent
    simp only [hupd]
    simp

/-- Witness for the amended C6 on concrete stores and payloads. -/
theorem upsert_return_semantics_witness :
    (runUpsertIdentity wgFull wIdentityUpd).2.isSome ∧
    (runCreateConsent wgFull none "cf2" wConsentUpd).2.isSome ∧
    (runUpsertLaw wgFull wLawUpd "lf").2.isSome ∧
    ((runUpsertThought wgFull wThoughtFull "tf").2.isSome ↔
      (wThoughtFull.glyph_ids ≠ [] ∧ wThoughtFull.mentions_claim_ids ≠ [])) ∧
    (runUpsertState wgFull wStateReq.toParams "sf").2 = none ∧
    (runUpsertClaim wgFull wClaimBare "cf3").2 = none ∧
    (runUpsertRitual wgFull wRitualUpd "rf2").2 = none ∧
    (runCreateEvent wgFull wEventUpd "ef2").2 = none :=
  ⟨(upsert_return_semantics wgFull "f0").1 wIdentityUpd,
   (upsert_return_semantics wgFull "cf2").2.1 wConsentUpd,
   (upsert_return_semantics wgFull "lf").2.2.1 wLawUpd,
   (upsert_return_semantics wgFull "tf").2.2.2.1 wThoughtFull,
   (upsert_return_semantics wgFull "sf").2.2.2.2.1 wStateReq.toParams rfl,
   (upsert_return_semantics wgFull "cf3").2.2.2.2.2.1 wClaimBare rfl,
   (upsert_return_semantics wgFull "rf2").2.2.2.2.2.2.1 wRitualUpd rfl,
   (upsert_return_semantics wgFull "ef2").2.2.2.2.2.2.2 wEventUpd rfl⟩

/-- Claim C7: why_chain(claim_id) fails with a not-found error when no Claim
with that id exists, and otherwise returns the claim's full field set plus the
deduplicated one-hop support set and the deduplicated one-hop contradiction
set — membership in the returned sets is exactly existence of the
corresponding SUPPORTED_BY / CONTRADICTS edge, with no duplicate entries. -/
theorem why_chain_spec (g : Graph) (cid : String) :
    (findClaim g cid = none → why_chain g cid = .error .notFound) ∧
    (∀ c, findClaim g cid = some c →
      ∃ row, why_chain g cid = .ok row ∧ row.claim = c ∧
        row.supports.Nodup ∧ row.contradicts.Nodup ∧
        (∀ r, r ∈ row.supports ↔ (cid, r) ∈ g.supportedBy) ∧
        (∀ d, d ∈ row.contradicts ↔ (cid, d) ∈ g.contradicts)) := by
  constructor
  · intro h
    unfold why_chain runWhyChain
    rw [h]
  · intro c h
    unfold why_chain runWhyChain
    simp only [h]
    refine ⟨_, rfl, rfl, List.nodup_dedup _, List.nodup_dedup _, ?_, ?_⟩
    · intro r
      rw [List.mem_dedup]
      constructor
      · intro hr
        rcases List.mem_map.mp hr with ⟨e, he, rfl⟩
        have h1 := (List.mem_filter.mp he).1
        have h2 : e.1 = cid := of_decide_eq_true (List.mem_filter.mp he).2
        have : (cid, e.2) = e := by
          rw [← h2]
        rw [this]
        exact h1
      · intro hr
        exact List.mem_map.mpr ⟨(cid, r),
          List.mem_filter.mpr ⟨hr, by simp⟩, rfl⟩
    · intro d
      rw [List.mem_dedup]
      constructor
      · intro hd
        rcases List.mem_map.mp hd with ⟨e, he, rfl⟩
        have h1 := (List.mem_filter.mp he).1
        have h2 : e.1 = cid := of_decide_eq_true (List.mem_filter.mp he).2
        have : (cid, e.2) = e := by
          rw [← h2]
        rw [this]
        exact h1
      · intro hd
        exact List.mem_map.mpr ⟨(cid, d),
          List.mem_filter.mpr ⟨hd, by simp⟩, rfl⟩

/-- Witness for C7 on a store where claim c1 has two supports and one
contradiction, and the id nope names no claim. -/
theorem why_chain_spec_witness :
    why_chain wgWhy "nope" = .error .notFound ∧
    ∃ row, why_chain wgWhy "c1" = .ok row ∧ row.claim = wClaimC1 ∧
      row.supports.Nodup ∧ row.contradicts.Nodup ∧
      (∀ r, r ∈ row.supports ↔ ("c1", r) ∈ wgWhy.supportedBy) ∧
      (∀ d, d ∈ row.contradicts ↔ ("c1", d) ∈ wgWhy.contradicts) :=
  ⟨(why_chain_spec wgWhy "nope").1 rfl,
   (why_chain_spec wgWhy "c1").2 wClaimC1 rfl⟩

theorem maxByT_eq_none (l : List StateNode) : maxByT l = none ↔ l = [] := by
  cases l with
  | nil => simp [maxByT]
  | cons st rest =>
    simp only [maxByT]
    cases maxByT rest with
    | none => simp
    | some m =>
      by_cases h : m.t > st.t <;> simp [h]

theorem maxByT_mem (l : List StateNode) (s : StateNode) (h : maxByT l = some s) : s ∈ l := by
  induction l with
  | nil => exact absurd h (by simp [maxByT])
  | cons st rest ih =>
    rw [maxByT] at h
    cases hr : maxByT rest with
    | none =>
      rw [hr] at h
      simp only [] at h
      rw [Option.some_inj] at h
      subst h
      exact List.mem_cons_self _ _
    | some m =>
      rw [hr] at h
      simp only [] at h
      by_cases hgt : m.t > st.t
      · rw [if_pos hgt, Option.some_inj] at h
        subst h
        exact List.mem_cons_of_mem _ (ih hr)
      · rw [if_neg hgt, Option.some_inj] at h
        subst h
        exact List.mem_cons_self _ _

theorem maxByT_max (l : List StateNode) (s : StateNode) (h : maxByT l = some s) :
    ∀ x ∈ l, x.t ≤ s.t := by
  induction l generalizing s with
  | nil => intro x hx; exact absurd hx (List.not_mem_nil _)
  | cons st rest ih =>
    rw [maxByT] at h
    intro x hx
    cases hr : maxByT rest with
    | none =>
      rw [hr] at h
      simp only [] at h
      rw [Option.some_inj] at h
      subst h
      have hrest : rest = [] := (maxByT_eq_none rest).mp hr
      subst hrest
      rcases List.mem_cons.mp hx with hx | hx
      · exact hx ▸ le_refl _
      · exact absurd hx (List.not_mem_nil _)
    | some m =>
      rw [hr] at h
      simp only [] at h
      by_cases hgt : m.t > st.t
      · rw [if_pos hgt, Option.some_inj] at h
        subst h
        rcases List.mem_cons.mp hx with hx | hx
        · exact hx ▸ le_of_lt hgt
        · exact ih m hr x hx
      · rw [if_neg hgt, Option.some_inj] at h
        subst h
        rcases List.mem_cons.mp hx with hx | hx
        · exact hx ▸ le_refl _
        · exact le_trans (ih m hr x hx) (not_lt.mp hgt)

/-- Claim C8: latest_self(identity_id) returns an empty result (not an error)
when the identity has no linked SelfState, and otherwise returns a linked
state of maximum timestamp t together with its full deduplicated evidence set
and its affect entries, each affect entry carrying the target entity plus the
ache and tension scalars of the FEELS edge. -/
theorem latest_self_spec (g : Graph) (nid : String) :
    (linkedStates g nid = [] → latest_self g nid = none) ∧
    (linkedStates g nid ≠ [] → (latest_self g nid).isSome) ∧
    (∀ row, latest_self g nid = some row →
      row.state ∈ linkedStates g nid ∧
      (∀ s ∈ linkedStates g nid, s.t ≤ row.state.t) ∧
      row.evidence.Nodup ∧
      (∀ r, r ∈ row.evidence ↔ (row.state.state_id, r) ∈ g.evidencedBy) ∧
      (∀ t a ten, (⟨some t, some a, some ten⟩ : AffectEntry) ∈ row.affect ↔
        (⟨row.state.state_id, t, a, ten⟩ : FeelsEdge) ∈ g.feels)) := by
  refine ⟨?_, ?_, ?_⟩
  · intro h
    unfold latest_self runLatestSelf
    rw [h]
    rfl
  · intro h
    unfold latest_self runLatestSelf
    cases hm : maxByT (linkedStates g nid) with
    | none => exact absurd ((maxByT_eq_none _).mp hm) h
    | some st => simp [hm]
  · intro row hrow
    unfold latest_self runLatestSelf at hrow
    cases hm : maxByT (linkedStates g nid) with
    | none =>
      rw [hm] at hrow
      exact absurd hrow (by simp)
    | some st =>
      rw [hm] at hrow
      rw [Option.some_inj] at hrow
      subst hrow
      refine ⟨maxByT_mem _ _ hm, maxByT_max _ _ hm, List.nodup_dedup _, ?_, ?_⟩
      · intro r
        rw [List.mem_dedup]
        constructor
        · intro hr
          rcases List.mem_map.mp hr with ⟨e, he, rfl⟩
          have h1 := (List.mem_filter.mp he).1
          have h2 : e.1 = st.state_id := of_decide_eq_true (List.mem_filter.mp he).2
          have h3 : (st.state_id, e.2) = e := by
            rw [← h2]
          rw [h3]
          exact h1
        · intro hr
          exact List.mem_map.mpr ⟨(st.state_id, r),
            List.mem_filter.mpr ⟨hr, by simp⟩, rfl⟩
      · intro t a ten
        by_cases hf : (g.feels.filter (fun e => decide (e.src = st.state_id))).isEmpty
        · rw [if_pos hf]
          constructor
          · intro hmem
            rw [List.mem_singleton] at hmem
            exact absurd (congrArg AffectEntry.target hmem) (by simp)
          · intro hmem
            have : (⟨st.state_id, t, a, ten⟩ : FeelsEdge) ∈
                g.feels.filter (fun e => decide (e.src = st.state_id)) :=
              List.mem_filter.mpr ⟨hmem, by simp⟩
            rw [List.isEmpty_iff.mp hf] at this
            exact absurd this (List.not_mem_nil _)
        · rw [if_neg hf]
          rw [List.mem_dedup]
          constructor
          · intro hmem
            rcases List.mem_map.mp hmem with ⟨e, he, heq⟩
            obtain ⟨esrc, etgt, eache, etension⟩ := e
            simp only [AffectEntry.mk.injEq, Option.some_inj] at heq
            have h1 := (List.mem_filter.mp he).1
            have h2 : esrc = st.state_id :=
              of_decide_eq_true (List.mem_filter.mp he).2
            rcases heq with ⟨he1, he2, he3⟩
            rw [← he1, ← he2, ← he3, ← h2]
            exact h1
          · intro hmem
            refine List.mem_map.mpr ⟨⟨st.state_id, t, a, ten⟩,
              List.mem_filter.mpr ⟨hmem, by simp⟩, rfl⟩

/-- Witness for C8 on a store where identity a has three states with
t = 1, 2, 3 and the t = 3 state carries one evidence edge and one FEELS
edge; also the unknown identity zz yields the empty result. -/
theorem latest_self_spec_witness :
    latest_self wgLatest "zz" = none ∧
    (latest_self wgLatest "a" = some wLatestRow ∧
      wLatestRow.state ∈ linkedStates wgLatest "a" ∧
      (∀ s ∈ linkedStates wgLatest "a", s.t ≤ wLatestRow.state.t) ∧
      wLatestRow.state.t = 3) := by
  have h := (latest_self_spec wgLatest "a").2.2 wLatestRow rfl
  exact ⟨(latest_self_spec wgLatest "zz").1 rfl, rfl, h.1, h.2.1, rfl⟩

theorem idxOf_lt_length (key : α → String) (i : String) (l : List α) (n : Nat)
    (h : idxOf key i l = some n) : n < l.length := by
  induction l generalizing n with
  | nil => exact Option.noConfusion h
  | cons x xs ih =>
    by_cases hx : key x = i
    · rw [idxOf, if_pos hx, Option.some_inj] at h
      subst h
      simp
    · rw [idxOf, if_neg hx] at h
      cases hr : idxOf key i xs with
      | none =>
        rw [hr] at h
        exact absurd h (by simp)
      | some m =>
        rw [hr] at h
        simp only [Option.map_some'] at h
        rw [Option.some_inj] at h
        subst h
        have := ih m hr
        simp only [List.length_cons]
        omega

theorem idxOf_append_left (key : α → String) (i : String) (l l2 : List α) (n : Nat)
    (h : idxOf key i l = some n) : idxOf key i (l ++ l2) = some n := by
  induction l generalizing n with
  | nil => exact Option.noConfusion h
  | cons x xs ih =>
    by_cases hx : key x = i
    · rw [idxOf, if_pos hx, Option.some_inj] at h
      subst h
      simp [idxOf, hx]
    · rw [idxOf, if_neg hx] at h
      cases hr : idxOf key i xs with
      | none =>
        rw [hr] at h
        exact absurd h (by simp)
      | some m =>
        rw [hr] at h
        simp only [Option.map_some'] at h
        rw [Option.some_inj] at h
        subst h
        show idxOf key i (x :: (xs ++ l2)) = _
        rw [idxOf, if_neg hx, ih m hr]
        rfl

theorem idxOf_eq_none_iff (key : α → String) (i : String) (l : List α) :
    idxOf key i l = none ↔ ∀ x ∈ l, key x ≠ i := by
  induction l with
  | nil => simp [idxOf]
  | cons x xs ih =>
    by_cases hx : key x = i
    · simp [idxOf, hx]
    · rw [idxOf, if_neg hx]
      constructor
      · intro h y hy
        rcases List.mem_cons.mp hy with hy | hy
        · exact hy ▸ hx
        · have hnone : idxOf key i xs = none := by
            cases hr : idxOf key i xs with
            | none => rfl
            | some m =>
              rw [hr] at h
              exact absurd h (by simp)
          exact ih.mp hnone y hy
      · intro hall
        have hnone : idxOf key i xs = none :=
          ih.mpr (fun y hy => hall y (List.mem_cons_of_mem x hy))
        rw [hnone]
        rfl

theorem idxOf_append_fresh (key : α → String) (i : String) (l : List α) (x : α)
    (hl : ∀ y ∈ l, key y ≠ i) (hx : key x = i) :
    idxOf key i (l ++ [x]) = some l.length := by
  induction l with
  | nil => simp [idxOf, hx]
  | cons y ys ih =>
    have hy : key y ≠ i := hl y (List.mem_cons_self _ _)
    show idxOf key i (y :: (ys ++ [x])) = _
    rw [idxOf, if_neg hy, ih (fun z hz => hl z (List.mem_cons_of_mem y hz))]
    rfl

theorem idxOf_some_exists (key : α → String) (i : String) (l : List α) (n : Nat)
    (h : idxOf key i l = some n) : ∃ x ∈ l, key x = i := by
  induction l generalizing n with
  | nil => exact Option.noConfusion h
  | cons x xs ih =>
    by_cases hx : key x = i
    · exact ⟨x, List.mem_cons_self _ _, hx⟩
    · rw [idxOf, if_neg hx] at h
      cases hr : idxOf key i xs with
      | none =>
        rw [hr] at h
        exact absurd h (by simp)
      | some m =>
        rcases ih m hr with ⟨y, hy, hk⟩
        exact ⟨y, List.mem_cons_of_mem x hy, hk⟩

theorem idxOf_isSome_of_lookupBy (key : α → String) (i : String) (l : List α)
    (h : (lookupBy key i l).isSome) : ∃ n, idxOf key i l = some n := by
  cases hr : idxOf key i l with
  | none =>
    have := (idxOf_eq_none_iff key i l).mp hr
    rw [← lookupBy_eq_none_iff key i l] at this
    rw [this] at h
    exact absurd h (by simp)
  | some n => exact ⟨n, rfl⟩

theorem mergeIdentityBare_sdf (g : Graph) (nid : String) :
    (mergeIdentityBare g nid).states = g.states ∧
    (mergeIdentityBare g nid).derivedFrom = g.derivedFrom := by
  unfold mergeIdentityBare
  split <;> exact ⟨rfl, rfl⟩

theorem runUpsertIdentity_sdf (g : Graph) (p : IdentityIn) :
    (runUpsertIdentity g p).1.states = g.states ∧
    (runUpsertIdentity g p).1.derivedFrom = g.derivedFrom := by
  unfold runUpsertIdentity
  cases findIdentity g p.node_id <;> exact ⟨rfl, rfl⟩

theorem runCreateConsent_sdf (g : Graph) (cid : Option String) (fresh : String) (p : ConsentIn) :
    (runCreateConsent g cid fresh p).1.states = g.states ∧
    (runCreateConsent g cid fresh p).1.derivedFrom = g.derivedFrom := by
  unfold runCreateConsent
  simp only []
  cases findConsent (mergeIdentityBare g p.node_id) (cid.getD fresh) <;>
    exact ⟨(mergeIdentityBare_sdf g p.node_id).1, (mergeIdentityBare_sdf g p.node_id).2⟩

theorem mergeThoughtNode_sdf (g : Graph) (p : ThoughtIn) (tid : String) :
    (mergeThoughtNode g p tid).1.states = g.states ∧
    (mergeThoughtNode g p tid).1.derivedFrom = g.derivedFrom := by
  unfold mergeThoughtNode
  cases findThought g tid <;> exact ⟨rfl, rfl⟩

theorem addThoughtSource_sdf (g : Graph) (tid : String) (src : Option String) :
    (addThoughtSource g tid src).states = g.states ∧
    (addThoughtSource g tid src).derivedFrom = g.derivedFrom := by
  unfold addThoughtSource
  cases src with
  | none => exact ⟨rfl, rfl⟩
  | some sid =>
    by_cases hsrc : sid ∈ g.sources
    · refine ⟨?_, ?_⟩ <;> simp only [if_pos hsrc]
    · refine ⟨?_, ?_⟩ <;> simp only [if_neg hsrc]

theorem runUpsertThought_sdf (g : Graph) (p : ThoughtIn) (fresh : String) :
    (runUpsertThought g p fresh).1.states = g.states ∧
    (runUpsertThought g p fresh).1.derivedFrom = g.derivedFrom := by
  unfold runUpsertThought
  simp only []
  split
  · exact mergeThoughtNode_sdf g p _
  · split
    · exact mergeThoughtNode_sdf g p _
    · exact ⟨((addThoughtSource_sdf _ _ _).1).trans (mergeThoughtNode_sdf g p _).1,
        ((addThoughtSource_sdf _ _ _).2).trans (mergeThoughtNode_sdf g p _).2⟩

theorem mergeClaimNode_sdf (g : Graph) (p : ClaimIn) (cid : String) :
    (mergeClaimNode g p cid).1.states = g.states ∧
    (mergeClaimNode g p cid).1.derivedFrom = g.derivedFrom := by
  unfold mergeClaimNode
  cases findClaim g cid <;> exact ⟨rfl, rfl⟩

theorem fst_ite_pair {γ β : Type} {c : Prop} [Decidable c] (a : γ) (x y : β) :
    (if c then (a, x) else (a, y)).1 = a := by
  split <;> rfl

theorem runUpsertClaim_sdf (g : Graph) (p : ClaimIn) (fresh : String) :
    (runUpsertClaim g p fresh).1.states = g.states ∧
    (runUpsertClaim g p fresh).1.derivedFrom = g.derivedFrom := by
  unfold runUpsertClaim
  simp only []
  split
  · rw [fst_ite_pair]
    exact mergeClaimNode_sdf g p _
  · exact mergeClaimNode_sdf g p _

theorem mergeRitualNode_sdf (g : Graph) (p : RitualParams) (rid : String) :
    (mergeRitualNode g p rid).1.states = g.states ∧
    (mergeRitualNode g p rid).1.derivedFrom = g.derivedFrom := by
  unfold mergeRitualNode
  cases findRitual g rid <;> exact ⟨rfl, rfl⟩

theorem runUpsertRitual_sdf (g : Graph) (p : RitualParams) (fresh : String) :
    (runUpsertRitual g p fresh).1.states = g.states ∧
    (runUpsertRitual g p fresh).1.derivedFrom = g.derivedFrom := by
  unfold runUpsertRitual
  simp only []
  split <;> exact mergeRitualNode_sdf g p _

theorem runUpsertLaw_sdf (g : Graph) (p : LawParams) (fresh : String) :
    (runUpsertLaw g p fresh).1.states = g.states ∧
    (runUpsertLaw g p fresh).1.derivedFrom = g.derivedFrom := by
  unfold runUpsertLaw
  simp only []
  cases findLaw g (p.law_id.getD fresh) <;> exact ⟨rfl, rfl⟩

theorem mergeEventNode_sdf (g : Graph) (p : EventParams) (eid : String) :
    (mergeEventNode g p eid).1.states = g.states ∧
    (mergeEventNode g p eid).1.derivedFrom = g.derivedFrom := by
  unfold mergeEventNode
  cases findEvent g eid <;> exact ⟨rfl, rfl⟩

theorem runCreateEvent_sdf (g : Graph) (p : EventParams) (fresh : String) :
    (runCreateEvent g p fresh).1.states = g.states ∧
    (runCreateEvent g p fresh).1.derivedFrom = g.derivedFrom := by
  unfold runCreateEvent
  simp only []
  split <;> exact mergeEventNode_sdf g p _

theorem mergeStateNode_df (g : Graph) (p : StateParams) (sid : String) :
    (mergeStateNode g p sid).1.derivedFrom = g.derivedFrom := by
  unfold mergeStateNode
  cases findState g sid <;> rfl

theorem mergeStateNode_create (g : Graph) (p : StateParams) (sid : String)
    (hfs : findState g sid = none) :
    mergeStateNode g p sid =
      ({ g with states := g.states ++ [newStateNode g p sid] }, newStateNode g p sid) := by
  unfold mergeStateNode
  rw [hfs]

theorem runUpsertState_derivedFrom_proj (g : Graph) (p : StateParams) (fresh : String)
    (v : IdentityNode) (hid : findIdentity g p.node_id = some v) :
    (runUpsertState g p fresh).1.derivedFrom =
      (addDerived (addInPhase (addHasState (mergeStateNode g p (p.state_id.getD fresh)).1
        p.node_id (p.state_id.getD fresh) g.clock) (p.state_id.getD fresh) p.phase_id)
        (p.state_id.getD fresh) p.derived_from_state_id).derivedFrom := by
  unfold runUpsertState
  simp only [hid]
  split
  · rw [fst_ite_pair]
    rfl
  · rfl

theorem consentGuard_isSome (g : Graph) (nid sc : String)
    (h : consentGuard g nid sc = true) : (findIdentity g nid).isSome := by
  by_cases hi : (findIdentity g nid).isSome
  · exact hi
  · exfalso
    have hrows : consentRows g nid sc = [] := by
      unfold consentRows
      rw [if_pos]
      rw [Option.isNone_iff_eq_none, ← Option.not_isSome_iff_eq_none]
      exact fun hc => hi hc
    unfold consentGuard at h
    rw [hrows] at h
    exact absurd h (by decide)

theorem runUpsertState_df_cases (g : Graph) (p : StateParams) (fresh : String)
    (v : IdentityNode) (hid : findIdentity g p.node_id = some v) :
    (runUpsertState g p fresh).1.derivedFrom = g.derivedFrom ∨
    ∃ pr, p.derived_from_state_id = some pr ∧
      (lookupBy StateNode.state_id pr (mergeStateNode g p (p.state_id.getD fresh)).1.states).isSome ∧
      (runUpsertState g p fresh).1.derivedFrom =
        mergeList g.derivedFrom [(p.state_id.getD fresh, pr)] := by
  have hproj := runUpsertState_derivedFrom_proj g p fresh v hid
  have hG3 : (addInPhase (addHasState (mergeStateNode g p (p.state_id.getD fresh)).1
      p.node_id (p.state_id.getD fresh) g.clock) (p.state_id.getD fresh)
      p.phase_id).derivedFrom = g.derivedFrom :=
    ((addInPhase_fields _ _ _).2.1).trans (mergeStateNode_df g p _)
  cases hprev : p.derived_from_state_id with
  | none =>
    left
    rw [hproj]
    unfold addDerived
    rw [hprev]
    exact hG3
  | some pr =>
    by_cases hpf : (findState (addInPhase (addHasState (mergeStateNode g p
        (p.state_id.getD fresh)).1 p.node_id (p.state_id.getD fresh) g.clock)
        (p.state_id.getD fresh) p.phase_id) pr).isSome
    · right
      refine ⟨pr, rfl, ?_, ?_⟩
      · have heq : findState (addInPhase (addHasState (mergeStateNode g p
            (p.state_id.getD fresh)).1 p.node_id (p.state_id.getD fresh) g.clock)
            (p.state_id.getD fresh) p.phase_id) pr =
            lookupBy StateNode.state_id pr (mergeStateNode g p (p.state_id.getD fresh)).1.states := by
          unfold findState
          rw [(addInPhase_fields _ _ _).1]
          rfl
        rw [← heq]
        exact hpf
      · rw [hproj]
        unfold addDerived
        rw [hprev]
        simp only []
        rw [if_pos hpf]
        exact congrArg (fun l => mergeList l [(p.state_id.getD fresh, pr)]) hG3
    · left
      rw [hproj]
      unfold addDerived
      rw [hprev]
      simp only []
      rw [if_neg hpf]
      exact hG3

theorem runUpsertState_states_fresh (g : Graph) (p : StateParams) (fresh : String)
    (v : IdentityNode) (hid : findIdentity g p.node_id = some v)
    (hfs : findState g (p.state_id.getD fresh) = none) :
    (runUpsertState g p fresh).1.states =
      g.states ++ [newStateNode g p (p.state_id.getD fresh)] := by
  rw [runUpsertState_states_proj g p fresh v hid, mergeStateNode_create g p _ hfs]

theorem upsert_state_preserves_DFInv (g : Graph) (b : StateUpsertIn) (fresh : String)
    (g2 : Graph) (row : Option StateNode)
    (hfresh : stateIdFresh g fresh) (hne : b.derived_from_state_id ≠ some fresh)
    (hok : upsert_state g b fresh = .ok (g2, row)) (hinv : DFInv g) : DFInv g2 := by
  unfold upsert_state at hok
  by_cases hg : consentGuard g b.node_id b.scope = true
  case neg =>
    rw [if_neg hg] at hok
    exact Except.noConfusion hok
  rw [if_pos hg] at hok
  have hpair : runUpsertState g b.toParams fresh = (g2, row) := by
    injection hok
  have hid := consentGuard_isSome g b.node_id b.scope hg
  obtain ⟨v, hv⟩ := Option.isSome_iff_exists.mp hid
  have hfs : findState g fresh = none :=
    (lookupBy_eq_none_iff _ _ _).mpr (fun st hst => hfresh st hst)
  have hg2 : g2 = (runUpsertState g b.toParams fresh).1 := by
    rw [hpair]
  have hstates : g2.states = g.states ++ [newStateNode g b.toParams fresh] := by
    rw [hg2]
    exact runUpsertState_states_fresh g b.toParams fresh v hv hfs
  have hrank_old : ∀ sid n, rankOf g sid = some n → rankOf g2 sid = some n := by
    intro sid n hr
    unfold rankOf at hr ⊢
    rw [hstates]
    exact idxOf_append_left _ _ _ _ _ hr
  have hrank_fresh : rankOf g2 fresh = some g.states.length := by
    unfold rankOf
    rw [hstates]
    exact idxOf_append_fresh _ _ _ _ (fun y hy => hfresh y hy) rfl
  have hold_ne_fresh : ∀ e ∈ g.derivedFrom, e.1 ≠ fresh := by
    intro e he heq
    rcases hinv.1 e he with ⟨i, _, hi, _, _⟩
    rcases idxOf_some_exists _ _ _ _ hi with ⟨x, hx, hk⟩
    exact hfresh x hx (by rw [hk, heq])
  have hsid : b.toParams.state_id.getD fresh = fresh := rfl
  rcases runUpsertState_df_cases g b.toParams fresh v hv with hdf | ⟨pr, hprev, hlook, hdf⟩
  · refine ⟨?_, ?_⟩
    · intro e he
      rw [hg2, hdf] at he
      rcases hinv.1 e he with ⟨i, j, hi, hj, hij⟩
      exact ⟨i, j, hrank_old _ _ hi, hrank_old _ _ hj, hij⟩
    · intro e he e2 he2 heq
      rw [hg2, hdf] at he he2
      exact hinv.2 e he e2 he2 heq
  · rw [hsid] at hlook hdf
    have hprfresh : pr ≠ fresh := by
      intro hc
      subst hc
      exact hne hprev
    have hprold : (lookupBy StateNode.state_id pr g.states).isSome := by
      rw [mergeStateNode_create g b.toParams fresh hfs] at hlook
      by_cases hl : (lookupBy StateNode.state_id pr g.states).isSome
      · exact hl
      · exfalso
        rw [Option.not_isSome_iff_eq_none] at hl
        have h2 : (lookupBy StateNode.state_id pr
            (g.states ++ [newStateNode g b.toParams fresh])).isSome := hlook
        rw [lookupBy_append_of_none _ _ _ _ hl] at h2
        have h3 : lookupBy StateNode.state_id pr [newStateNode g b.toParams fresh] = none :=
          (lookupBy_eq_none_iff _ _ _).mpr (fun x hx => by
            rw [List.mem_singleton] at hx
            subst hx
            exact fun hc => hprfresh hc.symm)
        rw [h3] at h2
        exact absurd h2 (by simp)
    obtain ⟨j, hj⟩ := idxOf_isSome_of_lookupBy _ _ _ hprold
    have hjlt : j < g.states.length := idxOf_lt_length _ _ _ _ hj
    have hprank : rankOf g2 pr = some j := by
      unfold rankOf
      rw [hstates]
      exact idxOf_append_left _ _ _ _ _ hj
    have hmem2 : ∀ e, e ∈ g2.derivedFrom ↔
        (e ∈ g.derivedFrom ∨ e = (fresh, pr)) := by
      intro e
      rw [hg2, hdf, mem_mergeList, List.mem_singleton]
    refine ⟨?_, ?_⟩
    · intro e he
      rcases (hmem2 e).mp he with he | he
      · rcases hinv.1 e he with ⟨i, j2, hi, hj2, hij⟩
        exact ⟨i, j2, hrank_old _ _ hi, hrank_old _ _ hj2, hij⟩
      · subst he
        exact ⟨g.states.length, j, hrank_fresh, hprank, hjlt⟩
    · intro e he e2 he2 heq
      rcases (hmem2 e).mp he with he | he <;> rcases (hmem2 e2).mp he2 with he2 | he2
      · exact hinv.2 e he e2 he2 heq
      · exfalso
        apply hold_ne_fresh e he
        rw [heq, he2]
      · exfalso
        apply hold_ne_fresh e2 he2
        rw [← heq, he]
      · rw [he, he2]

theorem DFInv_of_eq (g g2 : Graph) (hs : g2.states = g.states)
    (hd : g2.derivedFrom = g.derivedFrom) (hinv : DFInv g) : DFInv g2 := by
  constructor
  · intro e he
    rw [hd] at he
    rcases hinv.1 e he with ⟨i, j, hi, hj, hij⟩
    refine ⟨i, j, ?_, ?_, hij⟩
    · unfold rankOf
      rw [hs]
      exact hi
    · unfold rankOf
      rw [hs]
      exact hj
  · intro e he e2 he2 heq
    rw [hd] at he he2
    exact hinv.2 e he e2 he2 heq

theorem reachable_DFInv (g : Graph) (h : Reachable g) : DFInv g := by
  induction h with
  | init =>
    constructor
    · intro e he
      exact absurd he (by simp [Graph.empty])
    · intro e he
      exact absurd he (by simp [Graph.empty])
  | identity g1 p hr ih =>
    exact DFInv_of_eq g1 _ (runUpsertIdentity_sdf g1 p).1 (runUpsertIdentity_sdf g1 p).2 ih
  | consent g1 p fresh hr ih =>
    exact DFInv_of_eq g1 _ (runCreateConsent_sdf g1 none fresh p).1
      (runCreateConsent_sdf g1 none fresh p).2 ih
  | thought g1 p fresh hr ih =>
    exact DFInv_of_eq g1 _ (runUpsertThought_sdf g1 p fresh).1
      (runUpsertThought_sdf g1 p fresh).2 ih
  | state g1 b fresh g2 row hr hf hne hok ih =>
    exact upsert_state_preserves_DFInv g1 b fresh g2 row hf hne hok ih
  | claim g1 p fresh hr ih =>
    exact DFInv_of_eq g1 _ (runUpsertClaim_sdf g1 p fresh).1
      (runUpsertClaim_sdf g1 p fresh).2 ih
  | ritual g1 p fresh hr ih =>
    have h2 := runUpsertRitual_sdf g1
      { ritual_id := none, name := p.name, code := p.code, version := p.version
        checksum := p.checksum, effect := p.effect, meta := some [], applies_to := p.applies_to }
      fresh
    exact DFInv_of_eq g1 _ h2.1 h2.2 ih
  | law g1 p fresh hr ih =>
    have h2 := runUpsertLaw_sdf g1
      { law_id := none, name := p.name, version := p.version, text := p.text
        checksum := p.checksum, active := p.active }
      fresh
    exact DFInv_of_eq g1 _ h2.1 h2.2 ih
  | event g1 p fresh hr ih =>
    exact DFInv_of_eq g1 _ (runCreateEvent_sdf g1 p fresh).1
      (runCreateEvent_sdf g1 p fresh).2 ih

theorem dfChain_length_le_rank (g : Graph) (hinv : DFInv g) :
    ∀ l a i, dfChain g (a :: l) → rankOf g a = some i → l.length ≤ i := by
  intro l
  induction l with
  | nil =>
    intro a i _ _
    simp
  | cons b rest ih =>
    intro a i hch hi
    have hch2 : (a, b) ∈ g.derivedFrom ∧ dfChain g (b :: rest) := hch
    rcases hinv.1 (a, b) hch2.1 with ⟨i2, j, hi2, hj, hij⟩
    have hi2a : rankOf g a = some i2 := hi2
    rw [hi] at hi2a
    have hii : i = i2 := Option.some_inj.mp hi2a
    have hjb : rankOf g b = some j := hj
    have hr := ih b j hch2.2 hjb
    simp only [List.length_cons]
    omega

theorem dfChain_rank_lt (g : Graph) (hinv : DFInv g) (b : String) (j : Nat)
    (hb : rankOf g b = some j) :
    ∀ l a i, dfChain g (a :: (l ++ [b])) → rankOf g a = some i → j < i := by
  intro l
  induction l with
  | nil =>
    intro a i hch hi
    have hch2 : (a, b) ∈ g.derivedFrom ∧ dfChain g [b] := hch
    rcases hinv.1 (a, b) hch2.1 with ⟨i2, j2, hi2, hj2, hij⟩
    have hi2a : rankOf g a = some i2 := hi2
    have hj2b : rankOf g b = some j2 := hj2
    rw [hi] at hi2a
    rw [hb] at hj2b
    have hii : i = i2 := Option.some_inj.mp hi2a
    have hjj : j = j2 := Option.some_inj.mp hj2b
    omega
  | cons c rest ih =>
    intro a i hch hi
    have hch2 : (a, c) ∈ g.derivedFrom ∧ dfChain g (c :: (rest ++ [b])) := hch
    rcases hinv.1 (a, c) hch2.1 with ⟨i2, k, hi2, hk, hki⟩
    have hi2a : rankOf g a = some i2 := hi2
    rw [hi] at hi2a
    have hii : i = i2 := Option.some_inj.mp hi2a
    have hkc : rankOf g c = some k := hk
    have hjk := ih c k hch2.2 hkc
    omega

/-- C9: in every graph reachable through the exposed write operations, the
DERIVED_FROM lineage relation on SelfState forms a forest: each state has at
most one outgoing DERIVED_FROM edge, every DERIVED_FROM walk has at most as
many edges as there are stored states (so repeatedly following lineage edges
terminates), and no walk returns to its starting state — no cycle is ever
created. -/
theorem derived_from_forest (g : Graph) (h : Reachable g) :
    (∀ e ∈ g.derivedFrom, ∀ e2 ∈ g.derivedFrom, e.1 = e2.1 → e = e2) ∧
    (∀ a l, dfChain g (a :: l) → l.length ≤ g.states.length) ∧
    (∀ a l, ¬ dfChain g (a :: (l ++ [a]))) := by
  have hinv := reachable_DFInv g h
  refine ⟨hinv.2, ?_, ?_⟩
  · intro a l hch
    cases l with
    | nil => simp
    | cons b rest =>
      have hch2 : (a, b) ∈ g.derivedFrom ∧ dfChain g (b :: rest) := hch
      rcases hinv.1 (a, b) hch2.1 with ⟨i, j, hi, hj, hij⟩
      have hia : rankOf g a = some i := hi
      have hlen := dfChain_length_le_rank g hinv (b :: rest) a i hch hia
      have hilt : i < g.states.length := by
        unfold rankOf at hia
        exact idxOf_lt_length _ _ _ _ hia
      omega
  · intro a l hch
    have hfirst : ∃ x, (a, x) ∈ g.derivedFrom := by
      cases l with
      | nil =>
        have hch2 : (a, a) ∈ g.derivedFrom ∧ dfChain g [a] := hch
        exact ⟨a, hch2.1⟩
      | cons c rest =>
        have hch2 : (a, c) ∈ g.derivedFrom ∧ dfChain g (c :: (rest ++ [a])) := hch
        exact ⟨c, hch2.1⟩
    rcases hfirst with ⟨x, hedge⟩
    rcases hinv.1 (a, x) hedge with ⟨i, j0, hi, _, _⟩
    have hia : rankOf g a = some i := hi
    exact Nat.lt_irrefl i (dfChain_rank_lt g hinv a i hia l a i hch hia)

/-- C9 witness: a concrete store reached by identity, consent and two state
upserts carries the lineage edge s2 → s1, and the walk s2, s1, s2 is not a
DERIVED_FROM chain there. -/
theorem derived_from_forest_witness :
    Reachable c9After ∧ ¬ dfChain c9After ("s2" :: (["s1"] ++ ["s2"])) := by
  have h1 : Reachable wg1 := .identity Graph.empty wIdentityA .init
  have h2 : Reachable wg2 := .consent wg1 wConsentPub "c1" h1
  have h3 : Reachable c10After :=
    .state wg2 wStateReq "s1" c10After c10Row h2 (by decide) (by decide) rfl
  have h4 : Reachable c9After :=
    .state c10After wStateReq2 "s2" c9After c9Row h3 (by decide) (by decide) rfl
  exact ⟨h4, (derived_from_forest c9After h4).2.2 "s2" ["s1"]⟩

/-- C10: the public state-upsert input has no state_id field and
routes.upsert_state hardcodes state_id = None, so with a fresh generated uuid
every successful call appends a brand-new SelfState node carrying that uuid as
its id, leaving every previously created SelfState entry unchanged — no call
ever matches and overwrites the fields of an earlier SelfState. -/
theorem upsert_state_always_creates (g : Graph) (b : StateUpsertIn) (fresh : String)
    (g2 : Graph) (row : Option StateNode)
    (hfresh : stateIdFresh g fresh)
    (hok : upsert_state g b fresh = .ok (g2, row)) :
    g2.states = g.states ++ [newStateNode g b.toParams fresh] ∧
    (newStateNode g b.toParams fresh).state_id = fresh := by
  refine ⟨?_, rfl⟩
  unfold upsert_state at hok
  by_cases hg : consentGuard g b.node_id b.scope = true
  case neg =>
    rw [if_neg hg] at hok
    exact Except.noConfusion hok
  rw [if_pos hg] at hok
  have hpair : runUpsertState g b.toParams fresh = (g2, row) := by
    injection hok
  obtain ⟨v, hv⟩ := Option.isSome_iff_exists.mp (consentGuard_isSome g b.node_id b.scope hg)
  have hfs : findState g fresh = none :=
    (lookupBy_eq_none_iff _ _ _).mpr (fun st hst => hfresh st hst)
  have hg2 : g2 = (runUpsertState g b.toParams fresh).1 := by
    rw [hpair]
  rw [hg2]
  exact runUpsertState_states_fresh g b.toParams fresh v hv hfs

/-- C10 witness: on the two-node consented store, upserting with generated id
s1 appends exactly the one new SelfState node with state_id s1. -/
theorem upsert_state_always_creates_witness :
    stateIdFresh wg2 "s1" ∧
    c10After.states = wg2.states ++ [newStateNode wg2 wStateReq.toParams "s1"] ∧
    (newStateNode wg2 wStateReq.toParams "s1").state_id = "s1" := by
  refine ⟨by decide, ?_⟩
  exact upsert_state_always_creates wg2 wStateReq "s1" c10After c10Row (by decide) rfl
